import Mathlib

/- Shallow embedding of the USPS Informed Delivery automation repository:
   the local script `nova_act_local.py` (class `LocalUSPSAutomator`), the
   serverless function `lambda/lambda_function.py` (class
   `LambdaUSPSAutomator`), and the helpers `lambda/utils/s3_uploader.py`,
   `lambda/utils/image_extractor.py`, `lambda/utils/nova_act_config.py`.

   External effects are modelled by explicit oracle fields of environment
   records: agent (`act`) calls, browser page operations, element
   screenshots, file and object-store writes, and the clock
   (`datetime.now()`, indexed by call counter).  A Python call that can
   raise is `Except String`-valued (the payload is `str(e)`); a call whose
   exception is irrelevant to control flow is a `Bool` oracle.  Runs are
   total functions from an environment to a result record plus a trace of
   session events, mirroring the sequential orchestration of the source. -/

namespace USPS

/-- Truth of a fallible call outcome (`True` when no exception was raised). -/
def okB : Except String Unit → Bool
  | .ok _ => true
  | .error _ => false

/-- Substring test on character lists, the embedding of Python's `in` on
strings (`"" in s` is `True`, matching `needle.isEmpty` on empty haystack). -/
def subList (needle : List Char) : List Char → Bool
  | [] => needle.isEmpty
  | c :: rest => needle.isPrefixOf (c :: rest) || subList needle rest

/-- Python `needle in hay` for strings. -/
def containsSub (needle hay : String) : Bool :=
  subList needle.toList hay.toList

/-- Python `str.upper()` (ASCII-faithful). -/
def pyUpper (s : String) : String := String.mk (s.toList.map Char.toUpper)

/-- Python `str.lower()` (ASCII-faithful). -/
def pyLower (s : String) : String := String.mk (s.toList.map Char.toLower)

/-- Python `os.path.join(dir, file)` for a relative second component. -/
def joinPath (dir file : String) : String := dir ++ "/" ++ file

/-- Python truthiness of an optional string attribute (`if src:`):
false for `None` and for the empty string. -/
def pyTruthy : Option String → Bool
  | none => false
  | some s => !s.isEmpty

/-- Loop body of `S3Uploader.upload_file` / `LambdaUSPSAutomator._upload_to_s3`
(`for attempt in range(3): try: put_object...; return True; except: if
attempt == 2: return False`).  `put a` is the outcome of the `put_object`
call on attempt `a`; the pair returned is (result, number of attempts made). -/
def uploadLoop (put : Nat → Except String Unit) : List Nat → Bool × Nat
  | [] => (false, 0)
  | a :: rest =>
    match put a with
    | .ok _ => (true, 1)
    | .error _ =>
      if a == 2 then (false, 1)
      else
        let r := uploadLoop put rest
        (r.1, r.2 + 1)

/-- `S3Uploader.upload_file` / `LambdaUSPSAutomator._upload_to_s3`: result
of the retried `put_object` loop over `range(3)`.  All exceptions from
`put_object` are caught inside the loop, so the embedding is `Bool`-valued. -/
def upload_file (put : Nat → Except String Unit) : Bool :=
  (uploadLoop put (List.range 3)).1

/-- Number of `put_object` attempts issued by `upload_file` / `_upload_to_s3`. -/
def uploadAttempts (put : Nat → Except String Unit) : Nat :=
  (uploadLoop put (List.range 3)).2

deriving instance DecidableEq for Except

/-- A DOM `img` element as seen by the scanning code, together with the
oracle outcomes of the external calls made on it: `get_attribute('src')`,
`get_attribute('alt')`, the Nova Act address-analysis `act` call (payload is
`str(analysis_result)`), and `img.screenshot()` (payload is the PNG bytes). -/
structure Img where
  src : Option String
  alt : Option String
  analysis : Except String String
  shot : Except String (List Nat)
  deriving DecidableEq, Repr

/-- The `skip_keywords` list of the filename/alt-text heuristic. -/
def skipKeywords : List String := ["logo", "banner", "icon", "button", "nav"]

/-- Python `img.get_attribute(...) or ''`. -/
def attrOr (o : Option String) : String := o.getD ""

/-- The filename/alt-text heuristic (`any(keyword in src.lower() or keyword
in alt.lower() for keyword in skip_keywords)`) of
`LocalUSPSAutomator.check_mail_images` and
`MailImageExtractor._should_include_image`. -/
def keywordSkip (img : Img) : Bool :=
  skipKeywords.any fun kw =>
    containsSub kw (pyLower (attrOr img.src)) || containsSub kw (pyLower (attrOr img.alt))

/-- The address-content condition on the uppercased agent reply:
`'HAS_ADDRESS' in analysis_text or any(keyword in analysis_text for keyword
in ['ADDRESS', 'RECIPIENT', 'STREET', 'ZIP'])`. -/
def hasAddressSignal (analysisText : String) : Bool :=
  let t := pyUpper analysisText
  containsSub "HAS_ADDRESS" t ||
    (["ADDRESS", "RECIPIENT", "STREET", "ZIP"].any fun kw => containsSub kw t)

/-- Outcome of the agent-based content check as used by the scanning loop:
if the analysis `act` call raised, the image is included "to be safe";
otherwise inclusion follows `hasAddressSignal` on the reply text. -/
def analysisKeep (img : Img) : Bool :=
  match img.analysis with
  | .error _ => true
  | .ok r => hasAddressSignal r

/-- Net per-image decision of the local scanning loop
(`LocalUSPSAutomator.check_mail_images`, keyword skip first, then the
agent check, with analysis failure defaulting to inclusion). -/
def includeImg (img : Img) : Bool :=
  if keywordSkip img then false else analysisKeep img

/-- `MailImageExtractor._should_include_image`: keyword-skipped images give
`False` without an agent call; otherwise the analysis `act` call's exception
propagates to the caller (`_find_and_analyze_images`), which includes the
image on failure. -/
def shouldIncludeImage (img : Img) : Except String Bool :=
  if keywordSkip img then .ok false
  else
    match img.analysis with
    | .error e => .error e
    | .ok r => .ok (hasAddressSignal r)

/-- Session/trace events recorded by the embedding: session start/stop,
an agent `act` call, a page operation (`keyboard.type`, `wait_for_timeout`,
`page.url`), a screenshot (`fullPage` distinguishes the fallback full-page
capture from an element capture), a persistence attempt (`ok` is its
outcome), and the log-persistence step. -/
inductive Ev where
  | startEv
  | stopEv
  | actEv
  | pageEv
  | shotEv (fullPage : Bool)
  | saveEv (ok : Bool)
  | logsEv
  deriving DecidableEq, Repr

/-- Events that use the browser session (agent calls and page operations). -/
def usesSession : Ev → Bool
  | .actEv => true
  | .pageEv => true
  | .shotEv _ => true
  | _ => false

/-- The per-selector inner scanning loop of
`LocalUSPSAutomator.check_mail_images` (and, equivalently,
`MailImageExtractor._find_and_analyze_images` with
`_should_include_image`), applied to the concatenation of the
`query_selector_all` results: keyword-skipped images are dropped without an
agent call; every other image gets one analysis `act` call (`Ev.actEv`) and
is kept according to `analysisKeep` (inclusion on analysis failure). -/
def scanImages : List Img → List Img × List Ev
  | [] => ([], [])
  | img :: rest =>
    let r := scanImages rest
    if keywordSkip img then r
    else (if analysisKeep img then img :: r.1 else r.1, Ev.actEv :: r.2)

/-- Loop body of the duplicate-removal step (`seen_srcs` set): an image is
kept iff `src` is truthy (`if src and src not in seen_srcs:`) and not seen. -/
def dedupeAux : List Img → List String → List Img
  | [], _ => []
  | img :: rest, seen =>
    match img.src with
    | none => dedupeAux rest seen
    | some s =>
      if s.isEmpty then dedupeAux rest seen
      else if s ∈ seen then dedupeAux rest seen
      else img :: dedupeAux rest (s :: seen)

/-- The duplicate-removal step of `check_mail_images` (both variants) and
`MailImageExtractor._remove_duplicate_images`. -/
def dedupeImages (imgs : List Img) : List Img := dedupeAux imgs []

/-- Wall-clock value returned by one `datetime.now()` call. -/
structure DT where
  year : Nat
  month : Nat
  day : Nat
  hour : Nat
  minute : Nat
  second : Nat
  deriving DecidableEq, Repr

/-- Decimal digit character (used for the zero-padded `strftime` fields). -/
def digitChar (n : Nat) : Char := Char.ofNat (48 + n % 10)

/-- Two-digit zero-padded decimal field (`%m`, `%d`, `%H`, `%M`, `%S`),
faithful for in-range field values. -/
def pad2 (n : Nat) : List Char := [digitChar (n / 10), digitChar n]

/-- Four-digit zero-padded decimal field (`%Y`), faithful for years < 10000. -/
def pad4 (n : Nat) : List Char :=
  [digitChar (n / 1000), digitChar (n / 100), digitChar (n / 10), digitChar n]

/-- `datetime.now().strftime('%Y%m%d_%H%M%S')`. -/
def tsFormat (d : DT) : String :=
  String.mk (pad4 d.year ++ pad2 d.month ++ pad2 d.day ++ ['_'] ++
    pad2 d.hour ++ pad2 d.minute ++ pad2 d.second)

/-- `f"mail_image_{n}_{timestamp}.png"`. -/
def mailImageName (n : Nat) (ts : String) : String :=
  "mail_image_" ++ toString n ++ "_" ++ ts ++ ".png"

/-- `f"mail_preview_full_{timestamp}.png"`. -/
def previewName (ts : String) : String :=
  "mail_preview_full_" ++ ts ++ ".png"

/-- The per-image processing loop of `check_mail_images` (`for i, img in
enumerate(unique_images): ...`), shared by both variants: `mkRef` renders a
persisted reference from a filename (local: `os.path.join(today_dir, ...)`,
lambda: the `s3://bucket/date/...` string), `persist` is the outcome of
`_save_to_file` / `_upload_to_s3` on that filename, `clock t` the `t`-th
`datetime.now()` call inside the loop.  Arguments: remaining images, the
1-based index `n` (from `i+1`), clock counter `t`.  Returns (persisted
references, events, final clock counter).  A falsy `src` skips the body
(no timestamp); a screenshot exception is caught per-image (`continue`). -/
def processImages (mkRef : String → String) (persist : String → Bool)
    (clock : Nat → DT) : List Img → Nat → Nat → List String × List Ev × Nat
  | [], _, t => ([], [], t)
  | img :: rest, n, t =>
    match img.src with
    | none => processImages mkRef persist clock rest (n + 1) t
    | some s =>
      if s.isEmpty then processImages mkRef persist clock rest (n + 1) t
      else
        let fname := mailImageName n (tsFormat (clock t))
        match img.shot with
        | .error _ =>
          let r := processImages mkRef persist clock rest (n + 1) (t + 1)
          (r.1, Ev.shotEv false :: r.2.1, r.2.2)
        | .ok _ =>
          let saved := persist fname
          let r := processImages mkRef persist clock rest (n + 1) (t + 1)
          (if saved then mkRef fname :: r.1 else r.1,
            Ev.shotEv false :: Ev.saveEv saved :: r.2.1, r.2.2)

/-- Body of `check_mail_images` shared by both variants: the initial
mail-check `act` call (whose exception escapes to the outer handler, which
returns the empty list), duplicate removal, the per-image loop, and the
full-page fallback (timestamp drawn, then `page.screenshot`, then persist)
taken exactly when the per-image loop persisted nothing.  `scanned` is the
(images, events) pair produced by the variant's collection phase. -/
def checkImagesCore (mailCheck : Except String Unit) (scanned : List Img × List Ev)
    (mkRef : String → String) (persist : String → Bool) (clock : Nat → DT)
    (fallbackShot : Except String (List Nat)) : List String × List Ev :=
  match mailCheck with
  | .error _ => ([], [Ev.actEv])
  | .ok _ =>
    let uniq := dedupeImages scanned.1
    let pr := processImages mkRef persist clock uniq 1 0
    if pr.1.isEmpty then
      let fname := previewName (tsFormat (clock pr.2.2))
      match fallbackShot with
      | .error _ => ([], Ev.actEv :: scanned.2 ++ pr.2.1 ++ [Ev.shotEv true])
      | .ok _ =>
        let saved := persist fname
        (if saved then [mkRef fname] else [],
          Ev.actEv :: scanned.2 ++ pr.2.1 ++ [Ev.shotEv true, Ev.saveEv saved])
    else (pr.1, Ev.actEv :: scanned.2 ++ pr.2.1)

/-- The Nova Act logs directory as the log-persistence code sees it:
whether it exists, its files as (relative path, bytes) pairs from
`os.walk`, and the per-file outcome of the copy/upload call. -/
structure LogEnv where
  dirExists : Bool
  files : List (String × List Nat)
  putOk : String → Bool

/-- File loop of `LocalUSPSAutomator._save_logs_to_file`: empty files are
skipped (`os.path.getsize(file_path) == 0`), each remaining file is copied
byte-for-byte to `outDir/rel`; a per-file write failure is skipped
(`continue`).  Returns (saved output paths, performed writes as
(path, bytes) pairs). -/
def copyLogFiles (writeOk : String → Bool) (outDir : String) :
    List (String × List Nat) → List String × List (String × List Nat)
  | [] => ([], [])
  | (rel, data) :: rest =>
    if data.length = 0 then copyLogFiles writeOk outDir rest
    else
      let out := joinPath outDir rel
      let r := copyLogFiles writeOk outDir rest
      if writeOk out then (out :: r.1, (out, data) :: r.2) else r

/-- `LocalUSPSAutomator._save_logs_to_file`: no directory means no copies;
otherwise the files are copied under the `logs` subdirectory of the
date directory. -/
def saveLogsToFile (todayDir : String) (env : LogEnv) :
    List String × List (String × List Nat) :=
  if env.dirExists then copyLogFiles env.putOk (joinPath todayDir "logs") env.files
  else ([], [])

/-- File loop of `S3Uploader.upload_logs`: empty files skipped, key
`f"{today}/logs/{rel_path}"`, body the file bytes, single `put_object`
per file with per-file failures skipped.  Returns (returned
`s3://bucket/key` references, performed puts as (key, bytes) pairs). -/
def uploadLogFilesAux (uploadOk : String → Bool) (bucket today : String) :
    List (String × List Nat) → List String × List (String × List Nat)
  | [] => ([], [])
  | (rel, data) :: rest =>
    if data.length = 0 then uploadLogFilesAux uploadOk bucket today rest
    else
      let key := today ++ "/logs/" ++ rel
      let r := uploadLogFilesAux uploadOk bucket today rest
      if uploadOk key then
        (("s3://" ++ bucket ++ "/" ++ key) :: r.1, (key, data) :: r.2)
      else r

/-- `S3Uploader.upload_logs`. -/
def upload_logs (bucket today : String) (env : LogEnv) :
    List String × List (String × List Nat) :=
  if env.dirExists then uploadLogFilesAux env.putOk bucket today env.files
  else ([], [])

/-- Environment of one `LocalUSPSAutomator.run` execution: outcomes of the
`NovaAct(...)` construction, `start()`, the navigation `act`, the six
login-step operations, the two Informed Delivery `act` calls, the
mail-check `act`, the `query_selector_all` results per selector, the
fallback `page.screenshot`, the `_save_to_file` outcome per filename, the
clock, the `stop()` outcome, the `SAVE_LOGS` environment variable, the logs
directory, and `self.today_dir`. -/
structure LocalEnv where
  initResult : Except String Unit
  startResult : Except String Unit
  navActResult : Except String Unit
  loginOps : Nat → Except String Unit
  findOps : Nat → Except String Unit
  mailCheck : Except String Unit
  selImgs : List (List Img)
  fallbackShot : Except String (List Nat)
  saveOk : String → Bool
  clock : Nat → DT
  stopResult : Except String Unit
  saveLogsFlag : String
  logEnv : LogEnv
  todayDir : String

/-- `LocalUSPSAutomator.check_mail_images`: scans (with filtering) the
concatenated selector matches, then runs the shared core; persisted
references are `os.path.join(self.today_dir, filename)`. -/
def checkMailImagesLocal (env : LocalEnv) : List String × List Ev :=
  checkImagesCore env.mailCheck (scanImages env.selImgs.flatten)
    (joinPath env.todayDir) env.saveOk env.clock env.fallbackShot

/-- Sequential execution of a fixed list of session operations inside one
`try` block: `kinds` are the event kinds in order, `outcomes i` the i-th
call's outcome; the first exception aborts the sequence and yields `false`
(the step's `except` clause returns `False`). -/
def runOps (outcomes : Nat → Except String Unit) : List Ev → Nat → Bool × List Ev
  | [], _ => (true, [])
  | k :: rest, i =>
    match outcomes i with
    | .ok _ =>
      let r := runOps outcomes rest (i + 1)
      (r.1, k :: r.2)
    | .error _ => (false, [k])

/-- Operation kinds of `LocalUSPSAutomator.attempt_login`: act (username
field), type (username), act (password field), type (password), act
(submit), act (login check). -/
def loginOpKindsLocal : List Ev :=
  [Ev.actEv, Ev.pageEv, Ev.actEv, Ev.pageEv, Ev.actEv, Ev.actEv]

/-- `LocalUSPSAutomator.attempt_login`: `True` iff no operation raised. -/
def attemptLoginLocal (env : LocalEnv) : Bool × List Ev :=
  runOps env.loginOps loginOpKindsLocal 0

/-- Operation kinds of `LocalUSPSAutomator.find_informed_delivery`
(after the `page.url` read): two `act` calls. -/
def findOpKindsLocal : List Ev := [Ev.actEv, Ev.actEv]

/-- `LocalUSPSAutomator.find_informed_delivery` (the initial `page.url`
read is the leading page event). -/
def findInformedDeliveryLocal (env : LocalEnv) : Bool × List Ev :=
  let r := runOps env.findOps findOpKindsLocal 0
  (r.1, Ev.pageEv :: r.2)

/-- `LocalUSPSAutomator.start_and_navigate`: `start()`, the `page.url`
read, then the navigation `act`; exceptions re-raise to `run`. -/
def startAndNavigateLocal (env : LocalEnv) : Except String Unit × List Ev :=
  match env.startResult with
  | .error e => (.error e, [Ev.startEv])
  | .ok _ =>
    match env.navActResult with
    | .error e => (.error e, [Ev.startEv, Ev.pageEv, Ev.actEv])
    | .ok _ => (.ok (), [Ev.startEv, Ev.pageEv, Ev.actEv])

/-- `os.environ.get('SAVE_LOGS', 'true').lower() == 'true'`. -/
def logsEnabled (env : LocalEnv) : Bool := pyLower env.saveLogsFlag == "true"

/-- Result dictionary of `LocalUSPSAutomator.run` (the derived counts
`images_downloaded`, `files_saved`, `logs_saved` are the lengths of the two
lists; `execution_time`, `date`, `method`, `output_directory` carry no
logic), plus the event trace of the execution. -/
structure RunOutcome where
  success : Bool
  errorMessage : Option String
  savedFiles : List String
  savedLogs : List String
  trace : List Ev
  deriving DecidableEq, Repr

/-- The guarded `try` sequence of `LocalUSPSAutomator.run` together with
its broad `except` clause: initialize, start/navigate, login, Informed
Delivery, mail images; an escaping exception's text becomes
`error_message`.  Returns ((success, error_message, saved_files), events). -/
def runLocalTry (env : LocalEnv) : (Bool × Option String × List String) × List Ev :=
  match env.initResult with
  | .error e => ((false, some e, []), [])
  | .ok _ =>
    match startAndNavigateLocal env with
    | (.error e, tnav) => ((false, some e, []), tnav)
    | (.ok _, tnav) =>
      let lg := attemptLoginLocal env
      if lg.1 then
        let fd := findInformedDeliveryLocal env
        if fd.1 then
          let ck := checkMailImagesLocal env
          ((true, none, ck.1), tnav ++ lg.2 ++ fd.2 ++ ck.2)
        else
          ((false, some "Could not access Informed Delivery", []),
            tnav ++ lg.2 ++ fd.2)
      else ((false, some "Login failed", []), tnav ++ lg.2)

/-- `LocalUSPSAutomator.run`: the guarded `try` sequence (initialize,
start/navigate, login, Informed Delivery, mail images), the broad `except`
capturing `str(e)` into `error_message`, and the `finally` block that stops
the session when `self.nova_act` was set (its own exception swallowed) and
then saves the Nova Act logs when `SAVE_LOGS` is enabled. -/
def runLocal (env : LocalEnv) : RunOutcome :=
  let tryPart := runLocalTry env
  let stopTrace : List Ev :=
    if okB env.initResult then
      match env.stopResult with
      | .ok _ => [Ev.stopEv]
      | .error _ => [Ev.stopEv]
    else []
  let logsPart : List String × List Ev :=
    if logsEnabled env then
      ((saveLogsToFile env.todayDir env.logEnv).1, [Ev.logsEv])
    else ([], [])
  { success := tryPart.1.1
    errorMessage := tryPart.1.2.1
    savedFiles := tryPart.1.2.2
    savedLogs := logsPart.1
    trace := tryPart.2 ++ stopTrace ++ logsPart.2 }

/-- Environment of one `LambdaUSPSAutomator.run` execution (credential
retrieval happens in `__init__`, before `run`).  `putResult f a` is the
outcome of the `put_object` call for filename `f` on retry attempt `a`. -/
structure LambdaEnv where
  initResult : Except String Unit
  startResult : Except String Unit
  navActResult : Except String Unit
  loginOps : Nat → Except String Unit
  findOps : Nat → Except String Unit
  mailCheck : Except String Unit
  selImgs : List (List Img)
  fallbackShot : Except String (List Nat)
  putResult : String → Nat → Except String Unit
  clock : Nat → DT
  stopResult : Except String Unit
  bucket : String
  today : String

/-- `LambdaUSPSAutomator._upload_to_s3` for a given filename: the retried
`put_object` loop. -/
def uploadToS3 (env : LambdaEnv) (fname : String) : Bool :=
  (uploadLoop (env.putResult fname) (List.range 3)).1

/-- `LambdaUSPSAutomator.check_mail_images`: the collection phase merely
extends `all_images` with every selector match (no keyword filtering, no
agent content check), then the shared core runs with S3 persistence;
persisted references are `f"s3://{bucket}/{today}/{filename}"`. -/
def checkMailImagesLambda (env : LambdaEnv) : List String × List Ev :=
  checkImagesCore env.mailCheck (env.selImgs.flatten, [])
    (fun f => "s3://" ++ env.bucket ++ "/" ++ env.today ++ "/" ++ f)
    (uploadToS3 env) env.clock env.fallbackShot

/-- Operation kinds of `LambdaUSPSAutomator.attempt_login`: wait, act
(username field), type, act (password field), type, act (submit), wait,
act (login check). -/
def loginOpKindsLambda : List Ev :=
  [Ev.pageEv, Ev.actEv, Ev.pageEv, Ev.actEv, Ev.pageEv, Ev.actEv, Ev.pageEv, Ev.actEv]

/-- `LambdaUSPSAutomator.attempt_login`. -/
def attemptLoginLambda (env : LambdaEnv) : Bool × List Ev :=
  runOps env.loginOps loginOpKindsLambda 0

/-- Operation kinds of `LambdaUSPSAutomator.find_informed_delivery`:
a single `act` call. -/
def findOpKindsLambda : List Ev := [Ev.actEv]

/-- `LambdaUSPSAutomator.find_informed_delivery`. -/
def findInformedDeliveryLambda (env : LambdaEnv) : Bool × List Ev :=
  runOps env.findOps findOpKindsLambda 0

/-- `LambdaUSPSAutomator.start_and_navigate`: `start()` then the
navigation `act`. -/
def startAndNavigateLambda (env : LambdaEnv) : Except String Unit × List Ev :=
  match env.startResult with
  | .error e => (.error e, [Ev.startEv])
  | .ok _ =>
    match env.navActResult with
    | .error e => (.error e, [Ev.startEv, Ev.actEv])
    | .ok _ => (.ok (), [Ev.startEv, Ev.actEv])

/-- Result dictionary of `LambdaUSPSAutomator.run` (the counts
`images_downloaded` and `s3_uploads` are the length of `uploadedFiles`;
`execution_time`, `date`, `method` carry no logic), plus the event trace. -/
structure LambdaOutcome where
  success : Bool
  errorMessage : Option String
  uploadedFiles : List String
  trace : List Ev
  deriving DecidableEq, Repr

/-- The guarded `try` sequence of `LambdaUSPSAutomator.run` together with
its broad `except` clause. -/
def runLambdaTry (env : LambdaEnv) : (Bool × Option String × List String) × List Ev :=
  match env.initResult with
  | .error e => ((false, some e, []), [])
  | .ok _ =>
    match startAndNavigateLambda env with
    | (.error e, tnav) => ((false, some e, []), tnav)
    | (.ok _, tnav) =>
      let lg := attemptLoginLambda env
      if lg.1 then
        let fd := findInformedDeliveryLambda env
        if fd.1 then
          let ck := checkMailImagesLambda env
          ((true, none, ck.1), tnav ++ lg.2 ++ fd.2 ++ ck.2)
        else
          ((false, some "Could not access Informed Delivery", []),
            tnav ++ lg.2 ++ fd.2)
      else ((false, some "Login failed", []), tnav ++ lg.2)

/-- `LambdaUSPSAutomator.run`: same guarded sequence as the local variant;
the `finally` block only stops the session (`except: pass`) — it performs
no log persistence. -/
def runLambda (env : LambdaEnv) : LambdaOutcome :=
  let tryPart := runLambdaTry env
  let stopTrace : List Ev :=
    if okB env.initResult then
      match env.stopResult with
      | .ok _ => [Ev.stopEv]
      | .error _ => [Ev.stopEv]
    else []
  { success := tryPart.1.1
    errorMessage := tryPart.1.2.1
    uploadedFiles := tryPart.1.2.2
    trace := tryPart.2 ++ stopTrace }

/-- Retry loop of `MailImageExtractor._take_image_screenshot`: up to three
`img.screenshot(...)` attempts; after the third failure the exception
re-raises (and the caller's per-image handler drops the image). -/
def extractorShotRetry (shots : Nat → Except String (List Nat)) : Option (List Nat) :=
  match shots 0 with
  | .ok d => some d
  | .error _ =>
    match shots 1 with
    | .ok d => some d
    | .error _ =>
      match shots 2 with
      | .ok d => some d
      | .error _ => none

/-- `MailImageExtractor._process_single_image`: falsy `src` gives `None`;
otherwise screenshot with retry, then `f"mail_image_{image_num}_{ts}.png"`
and the upload callback, returning `f"s3://bucket/{today}/{filename}"` on
success. -/
def extractorProcessSingle (today : String) (cb : String → Bool)
    (clock : Nat → DT) (shots : Nat → Except String (List Nat))
    (img : Img) (imageNum : Nat) (t : Nat) : Option String :=
  match img.src with
  | none => none
  | some s =>
    if s.isEmpty then none
    else
      match extractorShotRetry shots with
      | none => none
      | some _ =>
        let fname := mailImageName imageNum (tsFormat (clock t))
        if cb fname then some ("s3://bucket/" ++ joinPath today fname) else none

/-- Statement-side predicate: `f` is a per-image capture reference of the
required shape, for some 0-based position `d` below `len` in the processed
list — name `mail_image_{1+d}_{ts}` with `ts` the `d`-th clock draw of the
processing loop. -/
def isPerImageName (mkRef : String → String) (clock : Nat → DT) (len : Nat)
    (f : String) : Bool :=
  (List.range len).any fun d =>
    f == mkRef (mailImageName (1 + d) (tsFormat (clock d)))

/-- Clock value used by the concrete witness environments. -/
def dtW : DT := ⟨2026, 10, 12, 12, 0, 0⟩

/-- Constant clock for the witness environments. -/
def clockW : Nat → DT := fun _ => dtW

/-- A mail-piece image with address content. -/
def imgGood : Img :=
  { src := some "mailpiece_a.jpg", alt := some "Mail Piece Images"
    analysis := .ok "HAS_ADDRESS", shot := .ok [1, 2] }

/-- A UI element whose `src` contains the keyword `logo`. -/
def imgLogo : Img :=
  { src := some "logo_mail.png", alt := some "mail"
    analysis := .ok "NO", shot := .ok [3] }

/-- A second element with the same `src` as `imgGood`. -/
def imgDup : Img :=
  { src := some "mailpiece_a.jpg", alt := some "mail"
    analysis := .ok "HAS_ADDRESS", shot := .ok [4] }

/-- An element with an empty `src` attribute. -/
def imgEmptySrc : Img :=
  { src := some "", alt := some "mail"
    analysis := .ok "HAS_ADDRESS", shot := .ok [5] }

/-- An element with no `src` attribute. -/
def imgNoSrc : Img :=
  { src := none, alt := some "mail"
    analysis := .ok "HAS_ADDRESS", shot := .ok [6] }

/-- Concrete image list for the duplicate-removal witness. -/
def imgsW : List Img := [imgGood, imgDup, imgEmptySrc, imgNoSrc]

/-- Concrete log directory with one non-empty file. -/
def logEnvW : LogEnv :=
  { dirExists := true, files := [("a.log", [7, 8])], putOk := fun _ => true }

/-- Concrete log directory whose only file is empty. -/
def logEnvEmptyFile : LogEnv :=
  { dirExists := true, files := [("trace.log", [])], putOk := fun _ => true }

/-- Fully succeeding local environment. -/
def envLW : LocalEnv :=
  { initResult := .ok (), startResult := .ok (), navActResult := .ok ()
    loginOps := fun _ => .ok (), findOps := fun _ => .ok ()
    mailCheck := .ok (), selImgs := [[imgGood]]
    fallbackShot := .ok [9], saveOk := fun _ => true, clock := clockW
    stopResult := .ok (), saveLogsFlag := "true"
    logEnv := logEnvW, todayDir := "mail_images/2026-10-12" }

/-- Local environment whose login-step calls raise. -/
def envLoginFail : LocalEnv := { envLW with loginOps := fun _ => .error "act failed" }

/-- Local environment with log saving disabled via `SAVE_LOGS`. -/
def envLogsOff : LocalEnv := { envLW with saveLogsFlag := "false" }

/-- Local environment whose initial mail-check `act` call raises. -/
def envMailCheckFail : LocalEnv := { envLW with mailCheck := .error "agent timeout" }

/-- Fully succeeding lambda environment. -/
def envMW : LambdaEnv :=
  { initResult := .ok (), startResult := .ok (), navActResult := .ok ()
    loginOps := fun _ => .ok (), findOps := fun _ => .ok ()
    mailCheck := .ok (), selImgs := [[imgGood]]
    fallbackShot := .ok [9], putResult := fun _ _ => .ok (), clock := clockW
    stopResult := .ok (), bucket := "usps-mail", today := "2026-10-12" }

/-- Lambda environment whose only selector match is the `logo` UI element. -/
def envLambdaLogo : LambdaEnv := { envMW with selImgs := [[imgLogo]] }

/-- Oracle whose second `put_object` attempt succeeds. -/
def putW : Nat → Except String Unit :=
  fun n => if n == 1 then .ok () else .error "connection reset"

/-- C1: the storage upload operation (`S3Uploader.upload_file` /
`LambdaUSPSAutomator._upload_to_s3`) issues the `put_object` call at most 3
times, returns `True` as soon as one attempt succeeds (after exactly that
many attempts), returns `False` after the third consecutive failure, and —
every `put_object` exception being caught inside the loop, so that the
embedding is a total `Bool`-valued function — never propagates an exception
to its caller. -/
theorem c1_upload_retry (put : Nat → Except String Unit) :
    uploadAttempts put ≤ 3 ∧
    (okB (put 0) = true → upload_file put = true ∧ uploadAttempts put = 1) ∧
    (okB (put 0) = false → okB (put 1) = true →
      upload_file put = true ∧ uploadAttempts put = 2) ∧
    (okB (put 0) = false → okB (put 1) = false → okB (put 2) = true →
      upload_file put = true ∧ uploadAttempts put = 3) ∧
    (okB (put 0) = false → okB (put 1) = false → okB (put 2) = false →
      upload_file put = false ∧ uploadAttempts put = 3) := by
  have hr : List.range 3 = [0, 1, 2] := rfl
  rcases h0 : put 0 with e0 | u0 <;> rcases h1 : put 1 with e1 | u1 <;>
    rcases h2 : put 2 with e2 | u2 <;>
      simp [upload_file, uploadAttempts, uploadLoop, okB, hr, h0, h1, h2]

/-- Witness for C1: with a first failing and a second succeeding attempt the
upload reports success after exactly two attempts. -/
theorem c1_upload_retry_witness :
    upload_file putW = true ∧ uploadAttempts putW = 2 :=
  (c1_upload_retry putW).2.2.1 rfl rfl

/-- C8: an agent analysis reply whose uppercased text contains `ADDRESS` —
including the literal `NO_ADDRESS` that the prompt requests for blank or
logo-only images — makes the address-content check classify the image as
containing address information (and a non-keyword-skipped image with such a
reply is included for capture); the check excludes an image only when the
reply contains none of `HAS_ADDRESS`, `ADDRESS`, `RECIPIENT`, `STREET`,
`ZIP`. -/
theorem c8_address_check (s : String) (img : Img) :
    (containsSub "ADDRESS" (pyUpper s) = true → hasAddressSignal s = true) ∧
    (hasAddressSignal s = false ↔
      containsSub "HAS_ADDRESS" (pyUpper s) = false ∧
      containsSub "ADDRESS" (pyUpper s) = false ∧
      containsSub "RECIPIENT" (pyUpper s) = false ∧
      containsSub "STREET" (pyUpper s) = false ∧
      containsSub "ZIP" (pyUpper s) = false) ∧
    hasAddressSignal "NO_ADDRESS" = true ∧
    (keywordSkip img = false → img.analysis = .ok s →
      containsSub "ADDRESS" (pyUpper s) = true → includeImg img = true) := by
  refine ⟨?_, ?_, by decide, ?_⟩
  · intro h
    simp [hasAddressSignal, h]
  · simp [hasAddressSignal]
  · intro hks hab h
    simp [includeImg, hks, analysisKeep, hab, hasAddressSignal, h]

/-- Witness for C8: a mail image whose analysis reply is the literal
`NO_ADDRESS` is nevertheless included for capture. -/
theorem c8_address_check_witness : includeImg imgGood = true :=
  (c8_address_check "HAS_ADDRESS" imgGood).2.2.2 (by decide) rfl (by decide)

/-- Every image kept by the duplicate-removal loop has a non-empty `src`
value that was not in the incoming `seen` set. -/
theorem dedupeAux_src (l : List Img) :
    ∀ seen, ∀ img ∈ dedupeAux l seen,
      ∃ s, img.src = some s ∧ s.isEmpty = false ∧ s ∉ seen := by
  induction l with
  | nil => intro seen img h; simp [dedupeAux] at h
  | cons hd tl ih =>
    intro seen img h
    rcases hs : hd.src with _ | s
    · simp only [dedupeAux, hs] at h
      exact ih seen img h
    · simp only [dedupeAux, hs] at h
      by_cases he : s.isEmpty = true
      · rw [if_pos he] at h
        exact ih seen img h
      · rw [if_neg he] at h
        by_cases hm : s ∈ seen
        · rw [if_pos hm] at h
          exact ih seen img h
        · rw [if_neg hm] at h
          rcases List.mem_cons.mp h with rfl | h'
          · exact ⟨s, hs, by simpa using he, hm⟩
          · obtain ⟨s', h1, h2, h3⟩ := ih (s :: seen) img h'
            exact ⟨s', h1, h2, fun hc => h3 (List.mem_cons_of_mem _ hc)⟩

/-- The duplicate-removal loop only drops elements, preserving order. -/
theorem dedupeAux_sublist (l : List Img) :
    ∀ seen, (dedupeAux l seen).Sublist l := by
  induction l with
  | nil => intro seen; simp [dedupeAux]
  | cons hd tl ih =>
    intro seen
    rcases hs : hd.src with _ | s
    · simp only [dedupeAux, hs]
      exact (ih seen).cons hd
    · simp only [dedupeAux, hs]
      by_cases he : s.isEmpty = true
      · rw [if_pos he]; exact (ih seen).cons hd
      · rw [if_neg he]
        by_cases hm : s ∈ seen
        · rw [if_pos hm]; exact (ih seen).cons hd
        · rw [if_neg hm]; exact (ih (s :: seen)).cons₂ hd

/-- The kept images have pairwise distinct `src` values. -/
theorem dedupeAux_srcs_nodup (l : List Img) :
    ∀ seen, ((dedupeAux l seen).map Img.src).Nodup := by
  induction l with
  | nil => intro seen; simp [dedupeAux]
  | cons hd tl ih =>
    intro seen
    rcases hs : hd.src with _ | s
    · simp only [dedupeAux, hs]; exact ih seen
    · simp only [dedupeAux, hs]
      by_cases he : s.isEmpty = true
      · rw [if_pos he]; exact ih seen
      · rw [if_neg he]
        by_cases hm : s ∈ seen
        · rw [if_pos hm]; exact ih seen
        · rw [if_neg hm]
          refine List.nodup_cons.mpr ⟨?_, ih (s :: seen)⟩
          intro hc
          obtain ⟨img, hmem, himg⟩ := List.mem_map.mp hc
          obtain ⟨s', h1, _, h3⟩ := dedupeAux_src tl (s :: seen) img hmem
          have : s' = s := by
            rw [h1, hs] at himg
            exact Option.some.inj himg
          exact h3 (by rw [this]; exact List.mem_cons_self s seen)

/-- Each distinct non-empty `src` present in the input (and unseen so far)
is represented in the output of the duplicate-removal loop. -/
theorem dedupeAux_keeps (l : List Img) :
    ∀ seen s, s.isEmpty = false → s ∉ seen →
      (∃ img ∈ l, img.src = some s) →
      ∃ img ∈ dedupeAux l seen, img.src = some s := by
  induction l with
  | nil => intro seen s _ _ h; simp at h
  | cons hd tl ih =>
    rintro seen s hse hns ⟨img, hmem, hsrc⟩
    rcases List.mem_cons.mp hmem with rfl | hmem'
    · simp only [dedupeAux, hsrc]
      rw [if_neg (by simp [hse]), if_neg hns]
      exact ⟨img, List.mem_cons_self _ _, hsrc⟩
    · rcases hs : hd.src with _ | s₂
      · simp only [dedupeAux, hs]
        exact ih seen s hse hns ⟨img, hmem', hsrc⟩
      · simp only [dedupeAux, hs]
        by_cases he : s₂.isEmpty = true
        · rw [if_pos he]
          exact ih seen s hse hns ⟨img, hmem', hsrc⟩
        · rw [if_neg he]
          by_cases hm : s₂ ∈ seen
          · rw [if_pos hm]
            exact ih seen s hse hns ⟨img, hmem', hsrc⟩
          · rw [if_neg hm]
            by_cases hss : s = s₂
            · exact ⟨hd, List.mem_cons_self _ _, by rw [hs, hss]⟩
            · obtain ⟨img', hm', hs'⟩ :=
                ih (s₂ :: seen) s hse
                  (by
                    intro hc
                    rcases List.mem_cons.mp hc with h | h
                    · exact hss h
                    · exact hns h)
                  ⟨img, hmem', hsrc⟩
              exact ⟨img', List.mem_cons_of_mem _ hm', hs'⟩

/-- Each kept image is the first element of the input with its `src`. -/
theorem dedupeAux_first (l : List Img) :
    ∀ seen, ∀ img ∈ dedupeAux l seen,
      l.find? (fun j => decide (j.src = img.src)) = some img := by
  induction l with
  | nil => intro seen img h; simp [dedupeAux] at h
  | cons hd tl ih =>
    intro seen img h
    rcases hs : hd.src with _ | s
    · simp only [dedupeAux, hs] at h
      obtain ⟨s', h1, _, _⟩ := dedupeAux_src tl seen img h
      have hfr := ih seen img h
      simp only [h1] at hfr
      simp [List.find?, hs, h1, hfr]
    · simp only [dedupeAux, hs] at h
      by_cases he : s.isEmpty = true
      · rw [if_pos he] at h
        obtain ⟨s', h1, h2, _⟩ := dedupeAux_src tl seen img h
        have hfr := ih seen img h
        simp only [h1] at hfr
        have hne : s ≠ s' := fun hc => by rw [hc] at he; rw [he] at h2; cases h2
        simp [List.find?, hs, h1, hne, hfr]
      · rw [if_neg he] at h
        by_cases hm : s ∈ seen
        · rw [if_pos hm] at h
          obtain ⟨s', h1, _, h3⟩ := dedupeAux_src tl seen img h
          have hfr := ih seen img h
          simp only [h1] at hfr
          have hne : s ≠ s' := fun hc => h3 (hc ▸ hm)
          simp [List.find?, hs, h1, hne, hfr]
        · rw [if_neg hm] at h
          rcases List.mem_cons.mp h with rfl | h'
          · simp [List.find?]
          · obtain ⟨s', h1, _, h3⟩ := dedupeAux_src tl (s :: seen) img h'
            have hfr := ih (s :: seen) img h'
            simp only [h1] at hfr
            have hne : s ≠ s' := fun hc => h3 (by rw [hc]; exact List.mem_cons_self s' seen)
            simp [List.find?, hs, h1, hne, hfr]

/-- The per-image loop persists at most one reference per processed image. -/
theorem processImages_length_le (mkRef : String → String) (persist : String → Bool)
    (clock : Nat → DT) (l : List Img) :
    ∀ n t, (processImages mkRef persist clock l n t).1.length ≤ l.length := by
  induction l with
  | nil => intro n t; simp [processImages]
  | cons hd tl ih =>
    intro n t
    rcases hs : hd.src with _ | s
    · simp only [processImages, hs]
      exact (ih (n + 1) t).trans (Nat.le_succ _)
    · simp only [processImages, hs]
      by_cases he : s.isEmpty = true
      · rw [if_pos he]
        exact (ih (n + 1) t).trans (Nat.le_succ _)
      · rw [if_neg he]
        rcases hshot : hd.shot with e | d
        · exact (ih (n + 1) (t + 1)).trans (Nat.le_succ _)
        · by_cases hsv : persist (mailImageName n (tsFormat (clock t))) = true
          · simp only [hsv, if_true]
            simp only [List.length_cons]
            exact Nat.succ_le_succ (ih (n + 1) (t + 1))
          · have hsv' : persist (mailImageName n (tsFormat (clock t))) = false :=
              Bool.eq_false_iff.mpr hsv
            simp [hsv']
            exact (ih (n + 1) (t + 1)).trans (Nat.le_succ _)

/-- C9: the duplicate-removal step of `check_mail_images` (both variants)
keeps a subsequence of the collected elements (order of first appearance
preserved), keeps only elements with a truthy (present, non-empty) `src`,
gives pairwise distinct `src` values, represents every distinct non-empty
`src` of the input, and keeps exactly the first occurrence of each kept
`src`; consequently the capture loop, which draws from this list, persists
at most one image per distinct `src`. -/
theorem c9_duplicate_removal (imgs : List Img) (mkRef : String → String)
    (persist : String → Bool) (clock : Nat → DT) :
    (dedupeImages imgs).Sublist imgs ∧
    (∀ img ∈ dedupeImages imgs, pyTruthy img.src = true) ∧
    ((dedupeImages imgs).map Img.src).Nodup ∧
    (∀ s : String, s.isEmpty = false → (∃ img ∈ imgs, img.src = some s) →
      ∃ img ∈ dedupeImages imgs, img.src = some s) ∧
    (∀ img ∈ dedupeImages imgs,
      imgs.find? (fun j => decide (j.src = img.src)) = some img) ∧
    (processImages mkRef persist clock (dedupeImages imgs) 1 0).1.length ≤
      (dedupeImages imgs).length := by
  refine ⟨dedupeAux_sublist imgs [], ?_, dedupeAux_srcs_nodup imgs [], ?_,
    dedupeAux_first imgs [], processImages_length_le _ _ _ _ 1 0⟩
  · intro img h
    obtain ⟨s, h1, h2, _⟩ := dedupeAux_src imgs [] img h
    simp [pyTruthy, h1, h2]
  · intro s hse h
    exact dedupeAux_keeps imgs [] s hse (by simp) h

/-- Witness for C9: in a list with a duplicated `src`, an empty `src` and a
missing `src`, the kept representative of `mailpiece_a.jpg` is the first
occurrence. -/
theorem c9_duplicate_removal_witness :
    imgsW.find? (fun j => decide (j.src = imgGood.src)) = some imgGood :=
  (c9_duplicate_removal imgsW id (fun _ => true) clockW).2.2.2.2.1 imgGood (by decide)

/-- Every non-empty source file whose write succeeds is copied verbatim to
its output path by the local log-copy loop. -/
theorem copyLogFiles_keeps (writeOk : String → Bool) (outDir : String)
    (files : List (String × List Nat)) :
    ∀ rel data, (rel, data) ∈ files → data ≠ [] →
      writeOk (joinPath outDir rel) = true →
      (joinPath outDir rel, data) ∈ (copyLogFiles writeOk outDir files).2 ∧
      joinPath outDir rel ∈ (copyLogFiles writeOk outDir files).1 := by
  induction files with
  | nil => intro rel data h; simp at h
  | cons hd tl ih =>
    rcases hd with ⟨r, d⟩
    intro rel data hmem hne hw
    rcases List.mem_cons.mp hmem with heq | hmem'
    · obtain ⟨h1, h2⟩ := Prod.mk.injEq .. ▸ heq
      subst h1; subst h2
      have hlen : ¬data.length = 0 := fun hc => hne (List.length_eq_zero.mp hc)
      simp only [copyLogFiles, if_neg hlen, hw, if_true]
      exact ⟨List.mem_cons_self _ _, List.mem_cons_self _ _⟩
    · have h' := ih rel data hmem' hne hw
      simp only [copyLogFiles]
      by_cases hlen : d.length = 0
      · rw [if_pos hlen]
        exact h'
      · rw [if_neg hlen]
        by_cases hw' : writeOk (joinPath outDir r) = true
        · simp only [hw', if_true]
          exact ⟨List.mem_cons_of_mem _ h'.1, List.mem_cons_of_mem _ h'.2⟩
        · have : writeOk (joinPath outDir r) = false := Bool.eq_false_iff.mpr hw'
          simp only [this, Bool.false_eq_true, if_false]
          exact h'

/-- Every write performed by the local log-copy loop is the verbatim bytes
of a non-empty source file, at the corresponding output path. -/
theorem copyLogFiles_sound (writeOk : String → Bool) (outDir : String)
    (files : List (String × List Nat)) :
    ∀ out data, (out, data) ∈ (copyLogFiles writeOk outDir files).2 →
      ∃ rel, out = joinPath outDir rel ∧ (rel, data) ∈ files ∧ data ≠ [] := by
  induction files with
  | nil => intro out data h; simp [copyLogFiles] at h
  | cons hd tl ih =>
    rcases hd with ⟨r, d⟩
    intro out data h
    simp only [copyLogFiles] at h
    by_cases hlen : d.length = 0
    · rw [if_pos hlen] at h
      obtain ⟨rel, h1, h2, h3⟩ := ih out data h
      exact ⟨rel, h1, List.mem_cons_of_mem _ h2, h3⟩
    · rw [if_neg hlen] at h
      by_cases hw' : writeOk (joinPath outDir r) = true
      · simp only [hw', if_true] at h
        rcases List.mem_cons.mp h with heq | h'
        · obtain ⟨rfl, rfl⟩ := Prod.mk.injEq .. ▸ heq
          exact ⟨r, rfl, List.mem_cons_self _ _,
            fun hc => hlen (by rw [hc]; rfl)⟩
        · obtain ⟨rel, h1, h2, h3⟩ := ih out data h'
          exact ⟨rel, h1, List.mem_cons_of_mem _ h2, h3⟩
      · have : writeOk (joinPath outDir r) = false := Bool.eq_false_iff.mpr hw'
        simp only [this, Bool.false_eq_true, if_false] at h
        obtain ⟨rel, h1, h2, h3⟩ := ih out data h
        exact ⟨rel, h1, List.mem_cons_of_mem _ h2, h3⟩

/-- Every non-empty source file whose `put_object` succeeds is uploaded
verbatim under its `{today}/logs/{rel}` key by the S3 log-upload loop. -/
theorem uploadLogFilesAux_keeps (uploadOk : String → Bool) (bucket today : String)
    (files : List (String × List Nat)) :
    ∀ rel data, (rel, data) ∈ files → data ≠ [] →
      uploadOk (today ++ "/logs/" ++ rel) = true →
      (today ++ "/logs/" ++ rel, data) ∈ (uploadLogFilesAux uploadOk bucket today files).2 ∧
      ("s3://" ++ bucket ++ "/" ++ (today ++ "/logs/" ++ rel)) ∈
        (uploadLogFilesAux uploadOk bucket today files).1 := by
  induction files with
  | nil => intro rel data h; simp at h
  | cons hd tl ih =>
    rcases hd with ⟨r, d⟩
    intro rel data hmem hne hw
    rcases List.mem_cons.mp hmem with heq | hmem'
    · obtain ⟨h1, h2⟩ := Prod.mk.injEq .. ▸ heq
      subst h1; subst h2
      have hlen : ¬data.length = 0 := fun hc => hne (List.length_eq_zero.mp hc)
      simp only [uploadLogFilesAux, if_neg hlen, hw, if_true]
      exact ⟨List.mem_cons_self _ _, List.mem_cons_self _ _⟩
    · have h' := ih rel data hmem' hne hw
      simp only [uploadLogFilesAux]
      by_cases hlen : d.length = 0
      · rw [if_pos hlen]
        exact h'
      · rw [if_neg hlen]
        by_cases hw' : uploadOk (today ++ "/logs/" ++ r) = true
        · simp only [hw', if_true]
          exact ⟨List.mem_cons_of_mem _ h'.1, List.mem_cons_of_mem _ h'.2⟩
        · have : uploadOk (today ++ "/logs/" ++ r) = false := Bool.eq_false_iff.mpr hw'
          simp only [this, Bool.false_eq_true, if_false]
          exact h'

/-- Every put performed by the S3 log-upload loop is the verbatim bytes of
a non-empty source file, at the corresponding key. -/
theorem uploadLogFilesAux_sound (uploadOk : String → Bool) (bucket today : String)
    (files : List (String × List Nat)) :
    ∀ key data, (key, data) ∈ (uploadLogFilesAux uploadOk bucket today files).2 →
      ∃ rel, key = today ++ "/logs/" ++ rel ∧ (rel, data) ∈ files ∧ data ≠ [] := by
  induction files with
  | nil => intro key data h; simp [uploadLogFilesAux] at h
  | cons hd tl ih =>
    rcases hd with ⟨r, d⟩
    intro key data h
    simp only [uploadLogFilesAux] at h
    by_cases hlen : d.length = 0
    · rw [if_pos hlen] at h
      obtain ⟨rel, h1, h2, h3⟩ := ih key data h
      exact ⟨rel, h1, List.mem_cons_of_mem _ h2, h3⟩
    · rw [if_neg hlen] at h
      by_cases hw' : uploadOk (today ++ "/logs/" ++ r) = true
      · simp only [hw', if_true] at h
        rcases List.mem_cons.mp h with heq | h'
        · obtain ⟨rfl, rfl⟩ := Prod.mk.injEq .. ▸ heq
          exact ⟨r, rfl, List.mem_cons_self _ _,
            fun hc => hlen (by rw [hc]; rfl)⟩
        · obtain ⟨rel, h1, h2, h3⟩ := ih key data h'
          exact ⟨rel, h1, List.mem_cons_of_mem _ h2, h3⟩
      · have : uploadOk (today ++ "/logs/" ++ r) = false := Bool.eq_false_iff.mpr hw'
        simp only [this, Bool.false_eq_true, if_false] at h
        obtain ⟨rel, h1, h2, h3⟩ := ih key data h
        exact ⟨rel, h1, List.mem_cons_of_mem _ h2, h3⟩

/-- C6 (amended): when the log directory exists, every non-empty file under
it whose individual copy/upload call succeeds is persisted with bytes
identical to the source file's bytes, under the same relative path beneath
the output logs location (`<today_dir>/logs/<rel>` locally, key
`<today>/logs/<rel>` on S3); conversely every performed write/put carries
the verbatim bytes of some non-empty source file at its corresponding
path.  (The claim's universal form fails: empty files are skipped.) -/
theorem c6_logs_verbatim (todayDir bucket today : String) (env : LogEnv)
    (hdir : env.dirExists = true) :
    (∀ rel data, (rel, data) ∈ env.files → data ≠ [] →
      env.putOk (joinPath (joinPath todayDir "logs") rel) = true →
      (joinPath (joinPath todayDir "logs") rel, data) ∈ (saveLogsToFile todayDir env).2 ∧
      joinPath (joinPath todayDir "logs") rel ∈ (saveLogsToFile todayDir env).1) ∧
    (∀ rel data, (rel, data) ∈ env.files → data ≠ [] →
      env.putOk (today ++ "/logs/" ++ rel) = true →
      (today ++ "/logs/" ++ rel, data) ∈ (upload_logs bucket today env).2 ∧
      ("s3://" ++ bucket ++ "/" ++ (today ++ "/logs/" ++ rel)) ∈
        (upload_logs bucket today env).1) ∧
    (∀ out data, (out, data) ∈ (saveLogsToFile todayDir env).2 →
      ∃ rel, out = joinPath (joinPath todayDir "logs") rel ∧
        (rel, data) ∈ env.files ∧ data ≠ []) ∧
    (∀ key data, (key, data) ∈ (upload_logs bucket today env).2 →
      ∃ rel, key = today ++ "/logs/" ++ rel ∧ (rel, data) ∈ env.files ∧ data ≠ []) := by
  simp only [saveLogsToFile, upload_logs, hdir, if_true]
  exact ⟨copyLogFiles_keeps env.putOk _ env.files,
    uploadLogFilesAux_keeps env.putOk bucket today env.files,
    copyLogFiles_sound env.putOk _ env.files,
    uploadLogFilesAux_sound env.putOk bucket today env.files⟩

/-- Witness for C6: a non-empty log file is copied verbatim into the
`logs` subdirectory. -/
theorem c6_logs_verbatim_witness :
    (joinPath (joinPath "mail_images/2026-10-12" "logs") "a.log", [7, 8]) ∈
      (saveLogsToFile "mail_images/2026-10-12" logEnvW).2 :=
  ((c6_logs_verbatim "mail_images/2026-10-12" "usps-mail" "2026-10-12" logEnvW
    rfl).1 "a.log" [7, 8] (by decide) (by decide) rfl).1

/-- Counterexample to C6 as stated: a file that is present under the log
directory but empty is not copied at all — neither variant produces any
write for it, so no copy with identical bytes exists. -/
theorem c6_counterexample :
    ("trace.log", ([] : List Nat)) ∈ logEnvEmptyFile.files ∧
    (saveLogsToFile "mail_images/2026-10-12" logEnvEmptyFile).2 = [] ∧
    (saveLogsToFile "mail_images/2026-10-12" logEnvEmptyFile).1 = [] ∧
    (upload_logs "usps-mail" "2026-10-12" logEnvEmptyFile).2 = [] ∧
    (upload_logs "usps-mail" "2026-10-12" logEnvEmptyFile).1 = [] := by
  refine ⟨by decide, rfl, rfl, rfl, rfl⟩

/-- The images kept by the local scanning loop are exactly the elements
passing the per-image decision `includeImg`, in order. -/
theorem scanImages_fst (l : List Img) :
    (scanImages l).1 = l.filter includeImg := by
  induction l with
  | nil => simp [scanImages]
  | cons hd tl ih =>
    simp only [scanImages]
    by_cases hk : keywordSkip hd = true
    · rw [if_pos hk]
      have : includeImg hd = false := by simp [includeImg, hk]
      simp [List.filter_cons, this, ih]
    · rw [if_neg hk]
      have hk' : keywordSkip hd = false := Bool.eq_false_iff.mpr hk
      by_cases ha : analysisKeep hd = true
      · have : includeImg hd = true := by simp [includeImg, hk', ha]
        simp [List.filter_cons, this, ha, ih]
      · have ha' : analysisKeep hd = false := Bool.eq_false_iff.mpr ha
        have : includeImg hd = false := by simp [includeImg, hk', ha']
        simp [List.filter_cons, this, ha', ih]

/-- The local scanning loop issues exactly one analysis `act` call per
image that survives the keyword heuristic. -/
theorem scanImages_snd (l : List Img) :
    (scanImages l).2 =
      List.replicate (l.countP fun i => !keywordSkip i) Ev.actEv := by
  induction l with
  | nil => simp [scanImages]
  | cons hd tl ih =>
    simp only [scanImages]
    by_cases hk : keywordSkip hd = true
    · rw [if_pos hk]
      simp [List.countP_cons, hk, ih]
    · rw [if_neg hk]
      have hk' : keywordSkip hd = false := Bool.eq_false_iff.mpr hk
      simp [List.countP_cons, hk', ih, List.replicate_succ]

/-- C5 (amended): in the local variant and the `MailImageExtractor`
utility, every matched image whose `src` or `alt` contains one of the
keywords `logo`, `banner`, `icon`, `button`, `nav` (case-insensitively) is
excluded from capture by the filename/alt-text heuristic, and every
remaining image receives exactly one secondary agent-based content check
before capture (the local loop's decision agreeing with
`_should_include_image` plus its caller's include-on-failure handling);
the serverless `LambdaUSPSAutomator.check_mail_images`, however, applies
no filtering — it feeds every selector match directly to deduplication and
capture. -/
theorem c5_image_filtering (imgs : List Img) (img : Img) (envM : LambdaEnv) :
    (∀ i ∈ (scanImages imgs).1, keywordSkip i = false ∧ analysisKeep i = true) ∧
    ((scanImages imgs).2 =
      List.replicate (imgs.countP fun i => !keywordSkip i) Ev.actEv) ∧
    (includeImg img = match shouldIncludeImage img with
      | .error _ => true
      | .ok b => b) ∧
    (∀ i ∈ dedupeImages (scanImages imgs).1, keywordSkip i = false) ∧
    (checkMailImagesLambda envM =
      checkImagesCore envM.mailCheck (envM.selImgs.flatten, [])
        (fun f => "s3://" ++ envM.bucket ++ "/" ++ envM.today ++ "/" ++ f)
        (uploadToS3 envM) envM.clock envM.fallbackShot) := by
  have hmem : ∀ i ∈ (scanImages imgs).1, keywordSkip i = false ∧ analysisKeep i = true := by
    intro i hi
    rw [scanImages_fst] at hi
    have hinc := List.of_mem_filter hi
    by_cases hk : keywordSkip i = true
    · rw [includeImg, if_pos hk] at hinc
      cases hinc
    · have hk' : keywordSkip i = false := Bool.eq_false_iff.mpr hk
      rw [includeImg, if_neg hk] at hinc
      exact ⟨hk', hinc⟩
  refine ⟨hmem, scanImages_snd imgs, ?_, ?_, rfl⟩
  · by_cases hk : keywordSkip img = true
    · have : includeImg img = false := by simp [includeImg, hk]
      simp [this, shouldIncludeImage, hk]
    · have hk' : keywordSkip img = false := Bool.eq_false_iff.mpr hk
      rcases ha : img.analysis with e | r
      · simp [includeImg, hk', analysisKeep, ha, shouldIncludeImage, hk]
      · simp [includeImg, hk', analysisKeep, ha, shouldIncludeImage, hk]
  · intro i hi
    exact (hmem i ((dedupeAux_sublist (scanImages imgs).1 []).mem hi)).1

/-- Witness for C5: a genuine mail-piece image survives the keyword
heuristic and passes the agent content check. -/
theorem c5_image_filtering_witness :
    keywordSkip imgGood = false ∧ analysisKeep imgGood = true :=
  (c5_image_filtering [imgGood] imgGood envMW).1 imgGood (by decide)

/-- Counterexample to C5 as stated: the serverless variant's
`check_mail_images` captures an element whose `src` contains the keyword
`logo` — the filtering does not apply in both deployment variants. -/
theorem c5_counterexample :
    keywordSkip imgLogo = true ∧
    (checkMailImagesLambda envLambdaLogo).1 =
      ["s3://usps-mail/2026-10-12/mail_image_1_20261012_120000.png"] := by
  exact ⟨by decide, by decide⟩

/-- Zero-padded decimal field characters are digits. -/
theorem digitChar_isDigit (n : Nat) : (digitChar n).isDigit = true := by
  have h : n % 10 < 10 := Nat.mod_lt _ (by decide)
  unfold digitChar
  revert h
  generalize n % 10 = m
  intro h
  interval_cases m <;> decide

/-- The `strftime('%Y%m%d_%H%M%S')` output is fifteen characters: eight
digits, an underscore, six digits. -/
theorem tsFormat_shape (d : DT) :
    (tsFormat d).length = 15 ∧
    (tsFormat d).toList.getD 8 ' ' = '_' ∧
    ∀ i, i < 15 → i ≠ 8 → ((tsFormat d).toList.getD i ' ').isDigit = true := by
  refine ⟨rfl, rfl, ?_⟩
  intro i h1 h2
  have htl : (tsFormat d).toList =
      [digitChar (d.year / 1000), digitChar (d.year / 100), digitChar (d.year / 10),
       digitChar d.year, digitChar (d.month / 10), digitChar d.month,
       digitChar (d.day / 10), digitChar d.day, '_',
       digitChar (d.hour / 10), digitChar d.hour,
       digitChar (d.minute / 10), digitChar d.minute,
       digitChar (d.second / 10), digitChar d.second] := rfl
  rw [htl]
  interval_cases i <;> first | exact absurd rfl h2 | exact digitChar_isDigit _

/-- Every reference persisted by the per-image loop on a list of images
with truthy `src` is the `mkRef` rendering of `mail_image_{n0+d}_{ts}`,
where `d` is the 0-based position of the image in the list and `ts` the
`(t0+d)`-th clock draw. -/
theorem processImages_names (mkRef : String → String) (persist : String → Bool)
    (clock : Nat → DT) (l : List Img) :
    ∀ n0 t0, (∀ img ∈ l, pyTruthy img.src = true) →
      ∀ f ∈ (processImages mkRef persist clock l n0 t0).1,
        ∃ d, d < l.length ∧
          f = mkRef (mailImageName (n0 + d) (tsFormat (clock (t0 + d)))) := by
  induction l with
  | nil => intro n0 t0 _ f hf; simp [processImages] at hf
  | cons hd tl ih =>
    intro n0 t0 htr f hf
    have hhd := htr hd (List.mem_cons_self _ _)
    have htl : ∀ img ∈ tl, pyTruthy img.src = true :=
      fun img h => htr img (List.mem_cons_of_mem _ h)
    rcases hs : hd.src with _ | s
    · rw [hs] at hhd
      simp [pyTruthy] at hhd
    · have hse : s.isEmpty = false := by
        rw [hs] at hhd
        simpa [pyTruthy] using hhd
      simp only [processImages, hs] at hf
      rw [if_neg (by simp [hse])] at hf
      rcases hshot : hd.shot with e | dat
      · simp only [hshot] at hf
        obtain ⟨d', hd', heq⟩ := ih (n0 + 1) (t0 + 1) htl f hf
        refine ⟨d' + 1, by simpa using Nat.succ_lt_succ hd', ?_⟩
        rw [heq]
        have e1 : n0 + 1 + d' = n0 + (d' + 1) := by omega
        have e2 : t0 + 1 + d' = t0 + (d' + 1) := by omega
        rw [e1, e2]
      · simp only [hshot] at hf
        by_cases hsv : persist (mailImageName n0 (tsFormat (clock t0))) = true
        · simp only [hsv, if_true] at hf
          rcases List.mem_cons.mp hf with rfl | hf'
          · exact ⟨0, by simp, by simp⟩
          · obtain ⟨d', hd', heq⟩ := ih (n0 + 1) (t0 + 1) htl f hf'
            refine ⟨d' + 1, by simpa using Nat.succ_lt_succ hd', ?_⟩
            rw [heq]
            have e1 : n0 + 1 + d' = n0 + (d' + 1) := by omega
            have e2 : t0 + 1 + d' = t0 + (d' + 1) := by omega
            rw [e1, e2]
        · have hsv' : persist (mailImageName n0 (tsFormat (clock t0))) = false :=
            Bool.eq_false_iff.mpr hsv
          simp only [hsv', Bool.false_eq_true, if_false] at hf
          obtain ⟨d', hd', heq⟩ := ih (n0 + 1) (t0 + 1) htl f hf
          refine ⟨d' + 1, by simpa using Nat.succ_lt_succ hd', ?_⟩
          rw [heq]
          have e1 : n0 + 1 + d' = n0 + (d' + 1) := by omega
          have e2 : t0 + 1 + d' = t0 + (d' + 1) := by omega
          rw [e1, e2]

/-- The kept images of the duplicate-removal step all have truthy `src`. -/
theorem dedupeImages_truthy (l : List Img) :
    ∀ img ∈ dedupeImages l, pyTruthy img.src = true := by
  intro img h
  obtain ⟨s, h1, h2, _⟩ := dedupeAux_src l [] img h
  simp [pyTruthy, h1, h2]

/-- Every reference returned by the shared `check_mail_images` body is
either a per-image capture name or the full-page fallback name. -/
theorem checkImagesCore_names (mailCheck : Except String Unit)
    (scanned : List Img × List Ev) (mkRef : String → String)
    (persist : String → Bool) (clock : Nat → DT)
    (fallbackShot : Except String (List Nat)) :
    ∀ f ∈ (checkImagesCore mailCheck scanned mkRef persist clock fallbackShot).1,
      isPerImageName mkRef clock (dedupeImages scanned.1).length f = true ∨
      f = mkRef (previewName (tsFormat (clock
        (processImages mkRef persist clock (dedupeImages scanned.1) 1 0).2.2))) := by
  intro f hf
  rcases hmc : mailCheck with e | u
  · simp [checkImagesCore, hmc] at hf
  · simp only [checkImagesCore, hmc] at hf
    by_cases hpr :
        (processImages mkRef persist clock (dedupeImages scanned.1) 1 0).1.isEmpty = true
    · rw [if_pos hpr] at hf
      rcases hfb : fallbackShot with e | dat
      · simp only [hfb] at hf
        simp at hf
      · simp only [hfb] at hf
        by_cases hsv : persist (previewName (tsFormat (clock
            (processImages mkRef persist clock (dedupeImages scanned.1) 1 0).2.2))) = true
        · simp only [hsv, if_true] at hf
          rcases List.mem_cons.mp hf with rfl | hf'
          · exact Or.inr rfl
          · simp at hf'
        · have hsv' := Bool.eq_false_iff.mpr hsv
          simp only [hsv', Bool.false_eq_true, if_false] at hf
          simp at hf
    · rw [if_neg hpr] at hf
      left
      obtain ⟨dd, hdd, heq⟩ :=
        processImages_names mkRef persist clock (dedupeImages scanned.1) 1 0
          (dedupeImages_truthy scanned.1) f hf
      rw [isPerImageName, List.any_eq_true]
      exact ⟨dd, List.mem_range.mpr hdd, by rw [heq]; simp⟩

/-- C7 (confirmed): every per-image screenshot reference persisted by
`check_mail_images` (both variants) is named
`mail_image_<n>_<timestamp>.png` with `<n>` the 1-based position of the
image in the processed (deduplicated) list and `<timestamp>` the clock
value drawn for that image, rendered under the variant's output location;
the fallback full-page capture is named `mail_preview_full_<timestamp>.png`;
`MailImageExtractor._process_single_image` names its upload the same way;
and the timestamp format is `YYYYMMDD_HHMMSS` (eight digits, underscore,
six digits). -/
theorem c7_capture_naming (envL : LocalEnv) (envM : LambdaEnv) (d : DT)
    (today : String) (cb : String → Bool) (clock : Nat → DT)
    (shots : Nat → Except String (List Nat)) (img : Img) (num t : Nat) :
    (∀ f ∈ (checkMailImagesLocal envL).1,
      isPerImageName (joinPath envL.todayDir) envL.clock
        (dedupeImages (scanImages envL.selImgs.flatten).1).length f = true ∨
      f = joinPath envL.todayDir (previewName (tsFormat (envL.clock
        (processImages (joinPath envL.todayDir) envL.saveOk envL.clock
          (dedupeImages (scanImages envL.selImgs.flatten).1) 1 0).2.2)))) ∧
    (∀ f ∈ (checkMailImagesLambda envM).1,
      isPerImageName
        (fun fn => "s3://" ++ envM.bucket ++ "/" ++ envM.today ++ "/" ++ fn)
        envM.clock (dedupeImages envM.selImgs.flatten).length f = true ∨
      f = "s3://" ++ envM.bucket ++ "/" ++ envM.today ++ "/" ++
        previewName (tsFormat (envM.clock
          (processImages
            (fun fn => "s3://" ++ envM.bucket ++ "/" ++ envM.today ++ "/" ++ fn)
            (uploadToS3 envM) envM.clock
            (dedupeImages envM.selImgs.flatten) 1 0).2.2))) ∧
    (∀ f, extractorProcessSingle today cb clock shots img num t = some f →
      f = "s3://bucket/" ++ joinPath today (mailImageName num (tsFormat (clock t)))) ∧
    ((tsFormat d).length = 15 ∧ (tsFormat d).toList.getD 8 ' ' = '_' ∧
      ∀ i, i < 15 → i ≠ 8 → ((tsFormat d).toList.getD i ' ').isDigit = true) := by
  refine ⟨?_, ?_, ?_, tsFormat_shape d⟩
  · exact checkImagesCore_names envL.mailCheck (scanImages envL.selImgs.flatten)
      (joinPath envL.todayDir) envL.saveOk envL.clock envL.fallbackShot
  · exact checkImagesCore_names envM.mailCheck (envM.selImgs.flatten, [])
      (fun fn => "s3://" ++ envM.bucket ++ "/" ++ envM.today ++ "/" ++ fn)
      (uploadToS3 envM) envM.clock envM.fallbackShot
  · intro f hf
    simp only [extractorProcessSingle] at hf
    rcases hs : img.src with _ | s
    · simp [hs] at hf
    · simp only [hs] at hf
      by_cases he : s.isEmpty = true
      · rw [if_pos he] at hf
        cases hf
      · rw [if_neg he] at hf
        rcases hr : extractorShotRetry shots with _ | dat
        · simp [hr] at hf
        · simp only [hr] at hf
          by_cases hcb : cb (mailImageName num (tsFormat (clock t))) = true
          · simp only [hcb, if_true] at hf
            exact (Option.some.inj hf).symm
          · have hcb' := Bool.eq_false_iff.mpr hcb
            simp [hcb'] at hf

/-- Witness for C7: the one capture of a fully succeeding local run is
named by its 1-based sequence number and the capture timestamp. -/
theorem c7_capture_naming_witness :
    isPerImageName (joinPath envLW.todayDir) envLW.clock 1
      "mail_images/2026-10-12/mail_image_1_20261012_120000.png" = true := by
  have h := (c7_capture_naming envLW envMW dtW "2026-10-12" (fun _ => true)
    clockW (fun _ => .ok [1]) imgGood 1 0).1
      "mail_images/2026-10-12/mail_image_1_20261012_120000.png" (by decide)
  exact h.resolve_right (by decide)

/-- The per-image loop's trace holds only element screenshots and
persistence attempts. -/
theorem processImages_events (mkRef : String → String) (persist : String → Bool)
    (clock : Nat → DT) (l : List Img) :
    ∀ n t, ∀ e ∈ (processImages mkRef persist clock l n t).2.1,
      e = Ev.shotEv false ∨ ∃ b, e = Ev.saveEv b := by
  induction l with
  | nil => intro n t e he; simp [processImages] at he
  | cons hd tl ih =>
    intro n t e he
    rcases hs : hd.src with _ | s
    · simp only [processImages, hs] at he
      exact ih _ _ e he
    · simp only [processImages, hs] at he
      by_cases hse : s.isEmpty = true
      · rw [if_pos hse] at he
        exact ih _ _ e he
      · rw [if_neg hse] at he
        rcases hshot : hd.shot with er | dat
        · simp only [hshot] at he
          rcases List.mem_cons.mp he with rfl | he'
          · exact Or.inl rfl
          · exact ih _ _ e he'
        · simp only [hshot] at he
          rcases List.mem_cons.mp he with rfl | he'
          · exact Or.inl rfl
          · rcases List.mem_cons.mp he' with rfl | he''
            · exact Or.inr ⟨_, rfl⟩
            · exact ih _ _ e he''

/-- A successful persistence event occurs in the per-image loop's trace
exactly when the loop persisted at least one reference. -/
theorem processImages_save_mem (mkRef : String → String) (persist : String → Bool)
    (clock : Nat → DT) (l : List Img) :
    ∀ n t, (Ev.saveEv true ∈ (processImages mkRef persist clock l n t).2.1 ↔
      (processImages mkRef persist clock l n t).1 ≠ []) := by
  induction l with
  | nil => intro n t; simp [processImages]
  | cons hd tl ih =>
    intro n t
    rcases hs : hd.src with _ | s
    · simp only [processImages, hs]
      exact ih _ _
    · simp only [processImages, hs]
      by_cases hse : s.isEmpty = true
      · rw [if_pos hse]
        exact ih _ _
      · rw [if_neg hse]
        rcases hshot : hd.shot with er | dat
        · simp only [List.mem_cons]
          constructor
          · rintro (hc | hm)
            · exact absurd hc (by decide)
            · exact (ih _ _).mp hm
          · intro hne
            exact Or.inr ((ih _ _).mpr hne)
        · by_cases hsv : persist (mailImageName n (tsFormat (clock t))) = true
          · simp only [hsv, if_true, List.mem_cons]
            constructor
            · intro _
              simp
            · intro _
              simp
          · have hsv' := Bool.eq_false_iff.mpr hsv
            simp only [hsv', Bool.false_eq_true, if_false, List.mem_cons]
            constructor
            · rintro (hc | hc | hm)
              · exact absurd hc (by decide)
              · exact absurd hc (by decide)
              · exact (ih _ _).mp hm
            · intro hne
              exact Or.inr (Or.inr ((ih _ _).mpr hne))

/-- Trace/fallback behaviour of the shared `check_mail_images` body, for a
collection phase whose events are all agent calls: a failed mail-check
`act` returns the empty list with no fallback attempt; when the mail-check
succeeds, the full-page fallback screenshot is attempted exactly once iff
the per-image loop persisted nothing; and the returned list is non-empty
iff some persistence attempt succeeded. -/
theorem checkImagesCore_fallback (mailCheck : Except String Unit)
    (scanned : List Img × List Ev) (mkRef : String → String)
    (persist : String → Bool) (clock : Nat → DT)
    (fallbackShot : Except String (List Nat))
    (hscan : ∀ e ∈ scanned.2, e = Ev.actEv) :
    (okB mailCheck = false →
      checkImagesCore mailCheck scanned mkRef persist clock fallbackShot =
        ([], [Ev.actEv])) ∧
    (okB mailCheck = true →
      ((processImages mkRef persist clock (dedupeImages scanned.1) 1 0).1 = [] →
        (checkImagesCore mailCheck scanned mkRef persist clock fallbackShot).2.count
          (Ev.shotEv true) = 1) ∧
      ((processImages mkRef persist clock (dedupeImages scanned.1) 1 0).1 ≠ [] →
        (checkImagesCore mailCheck scanned mkRef persist clock fallbackShot).2.count
          (Ev.shotEv true) = 0)) ∧
    ((checkImagesCore mailCheck scanned mkRef persist clock fallbackShot).1 ≠ [] ↔
      Ev.saveEv true ∈
        (checkImagesCore mailCheck scanned mkRef persist clock fallbackShot).2) := by
  have hscnt : scanned.2.count (Ev.shotEv true) = 0 := by
    rw [List.count_eq_zero]
    intro hc
    exact absurd (hscan _ hc) (by decide)
  have hscmem : Ev.saveEv true ∉ scanned.2 := by
    intro hc
    exact absurd (hscan _ hc) (by decide)
  have hprcnt : ∀ n t,
      (processImages mkRef persist clock (dedupeImages scanned.1) n t).2.1.count
        (Ev.shotEv true) = 0 := by
    intro n t
    rw [List.count_eq_zero]
    intro hc
    rcases processImages_events mkRef persist clock _ n t _ hc with h | ⟨b, h⟩
    · exact absurd h (by decide)
    · exact Ev.noConfusion h
  rcases hmc : mailCheck with e | u
  · refine ⟨?_, ?_, ?_⟩
    · intro _
      simp [checkImagesCore]
    · intro hok
      simp [okB] at hok
    · simp [checkImagesCore]
  · refine ⟨?_, fun _ => ?_, ?_⟩
    · intro hc
      simp [okB] at hc
    · constructor
      · intro hempty
        simp only [checkImagesCore]
        rw [if_pos (by simp [hempty])]
        rcases hfb : fallbackShot with e | dat
        · simp [List.count_append, List.count_cons, hscnt, hprcnt]
        · simp [List.count_append, List.count_cons, hscnt, hprcnt]
      · intro hne
        simp only [checkImagesCore]
        rw [if_neg (by simpa using hne)]
        simp [List.count_append, List.count_cons, hscnt, hprcnt]
    · simp only [checkImagesCore]
      by_cases hempty :
          (processImages mkRef persist clock (dedupeImages scanned.1) 1 0).1.isEmpty = true
      · rw [if_pos hempty]
        have hempty' :
            (processImages mkRef persist clock (dedupeImages scanned.1) 1 0).1 = [] :=
          List.isEmpty_iff.mp hempty
        have hnosave :
            Ev.saveEv true ∉
              (processImages mkRef persist clock (dedupeImages scanned.1) 1 0).2.1 := by
          intro hc
          exact (processImages_save_mem mkRef persist clock _ 1 0).mp hc hempty'
        rcases hfb : fallbackShot with e | dat
        · simp [List.mem_append, hscmem, hnosave]
        · by_cases hsv : persist (previewName (tsFormat (clock
              (processImages mkRef persist clock (dedupeImages scanned.1) 1 0).2.2))) = true
          · simp [hsv, List.mem_append, hscmem, hnosave]
          · have hsv' := Bool.eq_false_iff.mpr hsv
            simp [hsv', List.mem_append, hscmem, hnosave]
      · rw [if_neg hempty]
        have hne : (processImages mkRef persist clock (dedupeImages scanned.1) 1 0).1 ≠ [] := by
          simpa [List.isEmpty_iff] using hempty
        have hsv :=
          (processImages_save_mem mkRef persist clock (dedupeImages scanned.1) 1 0).mpr hne
        constructor
        · intro _
          simp [List.mem_cons, List.mem_append, hsv]
        · intro _
          exact hne

/-- Events of the serverless collection phase (there are none). -/
theorem lambdaScan_events (envM : LambdaEnv) :
    ∀ e ∈ (envM.selImgs.flatten, ([] : List Ev)).2, e = Ev.actEv := by
  intro e he
  simp at he

/-- Events of the local collection phase are all agent calls. -/
theorem localScan_events (envL : LocalEnv) :
    ∀ e ∈ (scanImages envL.selImgs.flatten).2, e = Ev.actEv := by
  intro e he
  rw [scanImages_snd] at he
  exact List.eq_of_mem_replicate he

/-- C10 (amended): `check_mail_images` (both variants) is a total function
returning a (possibly empty) list of persisted references; when the
initial mail-check `act` call raises, the caught exception makes it return
the empty list without attempting the fallback; when the scan phase
completes, exactly one full-page fallback capture is attempted iff no
per-image capture was persisted; and the returned list is non-empty iff at
least one capture (per-image or fallback) was successfully persisted. -/
theorem c10_check_mail_images (envL : LocalEnv) (envM : LambdaEnv) :
    (okB envL.mailCheck = false →
      checkMailImagesLocal envL = ([], [Ev.actEv])) ∧
    (okB envL.mailCheck = true →
      ((processImages (joinPath envL.todayDir) envL.saveOk envL.clock
          (dedupeImages (scanImages envL.selImgs.flatten).1) 1 0).1 = [] →
        (checkMailImagesLocal envL).2.count (Ev.shotEv true) = 1) ∧
      ((processImages (joinPath envL.todayDir) envL.saveOk envL.clock
          (dedupeImages (scanImages envL.selImgs.flatten).1) 1 0).1 ≠ [] →
        (checkMailImagesLocal envL).2.count (Ev.shotEv true) = 0)) ∧
    ((checkMailImagesLocal envL).1 ≠ [] ↔
      Ev.saveEv true ∈ (checkMailImagesLocal envL).2) ∧
    (okB envM.mailCheck = false →
      checkMailImagesLambda envM = ([], [Ev.actEv])) ∧
    (okB envM.mailCheck = true →
      ((processImages
          (fun fn => "s3://" ++ envM.bucket ++ "/" ++ envM.today ++ "/" ++ fn)
          (uploadToS3 envM) envM.clock
          (dedupeImages envM.selImgs.flatten) 1 0).1 = [] →
        (checkMailImagesLambda envM).2.count (Ev.shotEv true) = 1) ∧
      ((processImages
          (fun fn => "s3://" ++ envM.bucket ++ "/" ++ envM.today ++ "/" ++ fn)
          (uploadToS3 envM) envM.clock
          (dedupeImages envM.selImgs.flatten) 1 0).1 ≠ [] →
        (checkMailImagesLambda envM).2.count (Ev.shotEv true) = 0)) ∧
    ((checkMailImagesLambda envM).1 ≠ [] ↔
      Ev.saveEv true ∈ (checkMailImagesLambda envM).2) := by
  obtain ⟨a1, a2, a3⟩ := checkImagesCore_fallback envL.mailCheck
    (scanImages envL.selImgs.flatten) (joinPath envL.todayDir) envL.saveOk
    envL.clock envL.fallbackShot (localScan_events envL)
  obtain ⟨b1, b2, b3⟩ := checkImagesCore_fallback envM.mailCheck
    (envM.selImgs.flatten, [])
    (fun fn => "s3://" ++ envM.bucket ++ "/" ++ envM.today ++ "/" ++ fn)
    (uploadToS3 envM) envM.clock envM.fallbackShot (lambdaScan_events envM)
  exact ⟨a1, a2, a3, b1, b2, b3⟩

/-- Witness for C10: in a fully succeeding local run one image is
persisted, so no fallback capture is attempted and the result is
non-empty. -/
theorem c10_check_mail_images_witness :
    (checkMailImagesLocal envLW).2.count (Ev.shotEv true) = 0 :=
  ((c10_check_mail_images envLW envMW).2.1 rfl).2 (by decide)

/-- Counterexample to C10 as stated: when the initial mail-check `act`
call raises, no per-image capture is persisted and yet no full-page
fallback screenshot is attempted — the operation returns the empty list
with a trace holding only the failed agent call. -/
theorem c10_counterexample :
    (checkMailImagesLocal envMailCheckFail).1 = [] ∧
    (checkMailImagesLocal envMailCheckFail).2 = [Ev.actEv] ∧
    Ev.shotEv true ∉ (checkMailImagesLocal envMailCheckFail).2 ∧
    envMailCheckFail.selImgs = [[imgGood]] := by
  refine ⟨rfl, rfl, by decide, rfl⟩

/-- Operation events of a `runOps` sequence come from its kind list. -/
theorem runOps_events (outcomes : Nat → Except String Unit) (ks : List Ev) :
    ∀ i, ∀ e ∈ (runOps outcomes ks i).2, e ∈ ks := by
  induction ks with
  | nil => intro i e he; simp [runOps] at he
  | cons k rest ih =>
    intro i e he
    rcases ho : outcomes i with er | u
    · simp only [runOps, ho] at he
      simp at he
      simp [he]
    · simp only [runOps, ho] at he
      rcases List.mem_cons.mp he with rfl | he'
      · exact List.mem_cons_self _ _
      · exact List.mem_cons_of_mem _ (ih (i + 1) e he')

/-- Events of the shared `check_mail_images` body: the mail-check agent
call, collection-phase events, screenshots and persistence attempts. -/
theorem checkImagesCore_events (mailCheck : Except String Unit)
    (scanned : List Img × List Ev) (mkRef : String → String)
    (persist : String → Bool) (clock : Nat → DT)
    (fallbackShot : Except String (List Nat)) :
    ∀ e ∈ (checkImagesCore mailCheck scanned mkRef persist clock fallbackShot).2,
      e = Ev.actEv ∨ e ∈ scanned.2 ∨ (∃ b, e = Ev.shotEv b) ∨ ∃ b, e = Ev.saveEv b := by
  intro e he
  rcases hmc : mailCheck with er | u
  · simp only [checkImagesCore, hmc] at he
    simp at he
    exact Or.inl he
  · simp only [checkImagesCore, hmc] at he
    by_cases hempty :
        (processImages mkRef persist clock (dedupeImages scanned.1) 1 0).1.isEmpty = true
    · rw [if_pos hempty] at he
      rcases hfb : fallbackShot with er | dat
      · simp only [hfb] at he
        rcases List.mem_cons.mp he with rfl | he'
        · exact Or.inl rfl
        · rcases List.mem_append.mp he' with h | h
          · rcases List.mem_append.mp h with h2 | h2
            · exact Or.inr (Or.inl h2)
            · rcases processImages_events mkRef persist clock _ 1 0 e h2 with h3 | h3
              · exact Or.inr (Or.inr (Or.inl ⟨false, h3⟩))
              · exact Or.inr (Or.inr (Or.inr h3))
          · simp at h
            exact Or.inr (Or.inr (Or.inl ⟨true, h⟩))
      · simp only [hfb] at he
        rcases List.mem_cons.mp he with rfl | he'
        · exact Or.inl rfl
        · rcases List.mem_append.mp he' with h | h
          · rcases List.mem_append.mp h with h2 | h2
            · exact Or.inr (Or.inl h2)
            · rcases processImages_events mkRef persist clock _ 1 0 e h2 with h3 | h3
              · exact Or.inr (Or.inr (Or.inl ⟨false, h3⟩))
              · exact Or.inr (Or.inr (Or.inr h3))
          · simp at h
            rcases h with rfl | rfl
            · exact Or.inr (Or.inr (Or.inl ⟨true, rfl⟩))
            · exact Or.inr (Or.inr (Or.inr ⟨_, rfl⟩))
    · rw [if_neg hempty] at he
      rcases List.mem_cons.mp he with rfl | he'
      · exact Or.inl rfl
      · rcases List.mem_append.mp he' with h | h
        · exact Or.inr (Or.inl h)
        · rcases processImages_events mkRef persist clock _ 1 0 e h with h3 | h3
          · exact Or.inr (Or.inr (Or.inl ⟨false, h3⟩))
          · exact Or.inr (Or.inr (Or.inr h3))

/-- An event drawn from a kind list free of log/stop events is neither the
log-persistence step nor the session stop. -/
theorem not_logs_stop_of_mem_kinds (e : Ev) (ks : List Ev)
    (h : e ∈ ks) (h1 : Ev.logsEv ∉ ks) (h2 : Ev.stopEv ∉ ks) :
    e ≠ Ev.logsEv ∧ e ≠ Ev.stopEv :=
  ⟨fun hc => h1 (hc ▸ h), fun hc => h2 (hc ▸ h)⟩

/-- Events that are agent calls, page operations or screenshots are
neither the log-persistence step nor the session stop. -/
theorem ev_not_logs_stop (e : Ev)
    (h : e = Ev.actEv ∨ e = Ev.pageEv ∨ e = Ev.startEv ∨
      (∃ b, e = Ev.shotEv b) ∨ ∃ b, e = Ev.saveEv b) :
    e ≠ Ev.logsEv ∧ e ≠ Ev.stopEv := by
  rcases h with rfl | rfl | rfl | ⟨b, rfl⟩ | ⟨b, rfl⟩ <;>
    exact ⟨by simp, by simp⟩

/-- `check_mail_images` (local variant) never emits a log-persistence or
session-stop event. -/
theorem checkLocal_events (env : LocalEnv) :
    ∀ e ∈ (checkMailImagesLocal env).2, e ≠ Ev.logsEv ∧ e ≠ Ev.stopEv := by
  intro e he
  rcases checkImagesCore_events env.mailCheck (scanImages env.selImgs.flatten)
      (joinPath env.todayDir) env.saveOk env.clock env.fallbackShot e he with
    h | h | h | h
  · exact ev_not_logs_stop e (Or.inl h)
  · exact ev_not_logs_stop e (Or.inl (localScan_events env e h))
  · exact ev_not_logs_stop e (Or.inr (Or.inr (Or.inr (Or.inl h))))
  · exact ev_not_logs_stop e (Or.inr (Or.inr (Or.inr (Or.inr h))))

/-- `check_mail_images` (serverless variant) never emits a log-persistence
or session-stop event. -/
theorem checkLambda_events (env : LambdaEnv) :
    ∀ e ∈ (checkMailImagesLambda env).2, e ≠ Ev.logsEv ∧ e ≠ Ev.stopEv := by
  intro e he
  rcases checkImagesCore_events env.mailCheck (env.selImgs.flatten, [])
      (fun fn => "s3://" ++ env.bucket ++ "/" ++ env.today ++ "/" ++ fn)
      (uploadToS3 env) env.clock env.fallbackShot e he with
    h | h | h | h
  · exact ev_not_logs_stop e (Or.inl h)
  · simp at h
  · exact ev_not_logs_stop e (Or.inr (Or.inr (Or.inr (Or.inl h))))
  · exact ev_not_logs_stop e (Or.inr (Or.inr (Or.inr (Or.inr h))))

/-- The `try` block of the local `run` never emits a log-persistence or
session-stop event. -/
theorem runLocalTry_events (env : LocalEnv) :
    ∀ e ∈ (runLocalTry env).2, e ≠ Ev.logsEv ∧ e ≠ Ev.stopEv := by
  intro e he
  rcases hx : env.initResult with er | u
  · simp [runLocalTry, hx] at he
  · simp only [runLocalTry, hx] at he
    rcases hs : env.startResult with er | v
    · simp only [startAndNavigateLocal, hs] at he
      simp at he
      subst he
      exact ⟨by simp, by simp⟩
    · rcases hn : env.navActResult with er | w
      · simp only [startAndNavigateLocal, hs, hn] at he
        simp at he
        rcases he with rfl | rfl | rfl <;> exact ⟨by simp, by simp⟩
      · simp only [startAndNavigateLocal, hs, hn] at he
        by_cases hl : (attemptLoginLocal env).1 = true
        · by_cases hf : (findInformedDeliveryLocal env).1 = true
          · simp only [hl, hf, if_true] at he
            simp at he
            rcases he with rfl | rfl | rfl | h | h | h
            · exact ⟨by simp, by simp⟩
            · exact ⟨by simp, by simp⟩
            · exact ⟨by simp, by simp⟩
            · exact not_logs_stop_of_mem_kinds e _
                (runOps_events env.loginOps loginOpKindsLocal 0 e h)
                (by decide) (by decide)
            · simp only [findInformedDeliveryLocal] at h
              rcases List.mem_cons.mp h with rfl | h2
              · exact ⟨by simp, by simp⟩
              · exact not_logs_stop_of_mem_kinds e _
                  (runOps_events env.findOps findOpKindsLocal 0 e h2)
                  (by decide) (by decide)
            · exact checkLocal_events env e h
          · have hf' := Bool.eq_false_iff.mpr hf
            simp only [hl, hf', Bool.false_eq_true, if_true, if_false] at he
            simp at he
            rcases he with rfl | rfl | rfl | h | h
            · exact ⟨by simp, by simp⟩
            · exact ⟨by simp, by simp⟩
            · exact ⟨by simp, by simp⟩
            · exact not_logs_stop_of_mem_kinds e _
                (runOps_events env.loginOps loginOpKindsLocal 0 e h)
                (by decide) (by decide)
            · simp only [findInformedDeliveryLocal] at h
              rcases List.mem_cons.mp h with rfl | h2
              · exact ⟨by simp, by simp⟩
              · exact not_logs_stop_of_mem_kinds e _
                  (runOps_events env.findOps findOpKindsLocal 0 e h2)
                  (by decide) (by decide)
        · have hl' := Bool.eq_false_iff.mpr hl
          simp only [hl', Bool.false_eq_true, if_false] at he
          simp at he
          rcases he with rfl | rfl | rfl | h
          · exact ⟨by simp, by simp⟩
          · exact ⟨by simp, by simp⟩
          · exact ⟨by simp, by simp⟩
          · exact not_logs_stop_of_mem_kinds e _
              (runOps_events env.loginOps loginOpKindsLocal 0 e h)
              (by decide) (by decide)

/-- The `try` block of the serverless `run` never emits a log-persistence
or session-stop event. -/
theorem runLambdaTry_events (env : LambdaEnv) :
    ∀ e ∈ (runLambdaTry env).2, e ≠ Ev.logsEv ∧ e ≠ Ev.stopEv := by
  intro e he
  rcases hx : env.initResult with er | u
  · simp [runLambdaTry, hx] at he
  · simp only [runLambdaTry, hx] at he
    rcases hs : env.startResult with er | v
    · simp only [startAndNavigateLambda, hs] at he
      simp at he
      subst he
      exact ⟨by simp, by simp⟩
    · rcases hn : env.navActResult with er | w
      · simp only [startAndNavigateLambda, hs, hn] at he
        simp at he
        rcases he with rfl | rfl <;> exact ⟨by simp, by simp⟩
      · simp only [startAndNavigateLambda, hs, hn] at he
        by_cases hl : (attemptLoginLambda env).1 = true
        · by_cases hf : (findInformedDeliveryLambda env).1 = true
          · simp only [hl, hf, if_true] at he
            simp at he
            rcases he with rfl | rfl | h | h | h
            · exact ⟨by simp, by simp⟩
            · exact ⟨by simp, by simp⟩
            · exact not_logs_stop_of_mem_kinds e _
                (runOps_events env.loginOps loginOpKindsLambda 0 e h)
                (by decide) (by decide)
            · exact not_logs_stop_of_mem_kinds e _
                (runOps_events env.findOps findOpKindsLambda 0 e h)
                (by decide) (by decide)
            · exact checkLambda_events env e h
          · have hf' := Bool.eq_false_iff.mpr hf
            simp only [hl, hf', Bool.false_eq_true, if_true, if_false] at he
            simp at he
            rcases he with rfl | rfl | h | h
            · exact ⟨by simp, by simp⟩
            · exact ⟨by simp, by simp⟩
            · exact not_logs_stop_of_mem_kinds e _
                (runOps_events env.loginOps loginOpKindsLambda 0 e h)
                (by decide) (by decide)
            · exact not_logs_stop_of_mem_kinds e _
                (runOps_events env.findOps findOpKindsLambda 0 e h)
                (by decide) (by decide)
        · have hl' := Bool.eq_false_iff.mpr hl
          simp only [hl', Bool.false_eq_true, if_false] at he
          simp at he
          rcases he with rfl | rfl | h
          · exact ⟨by simp, by simp⟩
          · exact ⟨by simp, by simp⟩
          · exact not_logs_stop_of_mem_kinds e _
              (runOps_events env.loginOps loginOpKindsLambda 0 e h)
              (by decide) (by decide)

/-- The trace of the local `run` is the `try`-block trace, then the stop
attempt (when the session object was created), then the log-persistence
step (when `SAVE_LOGS` is enabled). -/
theorem runLocal_trace (env : LocalEnv) :
    (runLocal env).trace = (runLocalTry env).2 ++
      (if okB env.initResult then [Ev.stopEv] else []) ++
      (if logsEnabled env then [Ev.logsEv] else []) := by
  rcases hst : env.stopResult with e | u <;>
    by_cases hle : logsEnabled env = true <;>
      simp [runLocal, hst, hle]

/-- The trace of the serverless `run` is the `try`-block trace followed by
the stop attempt (when the session object was created). -/
theorem runLambda_trace (env : LambdaEnv) :
    (runLambda env).trace = (runLambdaTry env).2 ++
      (if okB env.initResult then [Ev.stopEv] else []) := by
  rcases hst : env.stopResult with e | u <;> simp [runLambda, hst]

/-- The saved-logs list of the local `run` is produced by
`_save_logs_to_file` exactly when `SAVE_LOGS` is enabled. -/
theorem runLocal_savedLogs (env : LocalEnv) :
    (runLocal env).savedLogs =
      if logsEnabled env then (saveLogsToFile env.todayDir env.logEnv).1 else [] := by
  by_cases hle : logsEnabled env = true <;> simp [runLocal, hle]

/-- When the session object was created, the `try`-block trace of the
local `run` starts with the session-start event. -/
theorem runLocalTry_head (env : LocalEnv) (h : env.initResult = .ok ()) :
    ∃ r, (runLocalTry env).2 = Ev.startEv :: r := by
  simp only [runLocalTry, h]
  rcases hs : env.startResult with er | v
  · refine ⟨[], ?_⟩
    simp [startAndNavigateLocal, hs]
  · rcases hn : env.navActResult with er | w
    · refine ⟨[Ev.pageEv, Ev.actEv], ?_⟩
      simp [startAndNavigateLocal, hs, hn]
    · by_cases hl : (attemptLoginLocal env).1 = true
      · by_cases hf : (findInformedDeliveryLocal env).1 = true
        · refine ⟨[Ev.pageEv, Ev.actEv] ++ (attemptLoginLocal env).2 ++
            (findInformedDeliveryLocal env).2 ++ (checkMailImagesLocal env).2, ?_⟩
          simp [startAndNavigateLocal, hs, hn, hl, hf]
        · have hf' := Bool.eq_false_iff.mpr hf
          refine ⟨[Ev.pageEv, Ev.actEv] ++ (attemptLoginLocal env).2 ++
            (findInformedDeliveryLocal env).2, ?_⟩
          simp [startAndNavigateLocal, hs, hn, hl, hf']
      · have hl' := Bool.eq_false_iff.mpr hl
        refine ⟨[Ev.pageEv, Ev.actEv] ++ (attemptLoginLocal env).2, ?_⟩
        simp [startAndNavigateLocal, hs, hn, hl']

/-- When the session object was created, the `try`-block trace of the
serverless `run` starts with the session-start event. -/
theorem runLambdaTry_head (env : LambdaEnv) (h : env.initResult = .ok ()) :
    ∃ r, (runLambdaTry env).2 = Ev.startEv :: r := by
  simp only [runLambdaTry, h]
  rcases hs : env.startResult with er | v
  · refine ⟨[], ?_⟩
    simp [startAndNavigateLambda, hs]
  · rcases hn : env.navActResult with er | w
    · refine ⟨[Ev.actEv], ?_⟩
      simp [startAndNavigateLambda, hs, hn]
    · by_cases hl : (attemptLoginLambda env).1 = true
      · by_cases hf : (findInformedDeliveryLambda env).1 = true
        · refine ⟨[Ev.actEv] ++ (attemptLoginLambda env).2 ++
            (findInformedDeliveryLambda env).2 ++ (checkMailImagesLambda env).2, ?_⟩
          simp [startAndNavigateLambda, hs, hn, hl, hf]
        · have hf' := Bool.eq_false_iff.mpr hf
          refine ⟨[Ev.actEv] ++ (attemptLoginLambda env).2 ++
            (findInformedDeliveryLambda env).2, ?_⟩
          simp [startAndNavigateLambda, hs, hn, hl, hf']
      · have hl' := Bool.eq_false_iff.mpr hl
        refine ⟨[Ev.actEv] ++ (attemptLoginLambda env).2, ?_⟩
        simp [startAndNavigateLambda, hs, hn, hl']

/-- When the `NovaAct` construction raised, the local `try` block performs
no session operation at all. -/
theorem runLocalTry_initFail (env : LocalEnv) (e : String)
    (h : env.initResult = .error e) : (runLocalTry env).2 = [] := by
  simp [runLocalTry, h]

/-- When the `NovaAct` construction raised, the serverless `try` block
performs no session operation at all. -/
theorem runLambdaTry_initFail (env : LambdaEnv) (e : String)
    (h : env.initResult = .error e) : (runLambdaTry env).2 = [] := by
  simp [runLambdaTry, h]

/-- The local `run` outcome, assembled from the `try` block, the guarded
stop, and the guarded log persistence. -/
theorem runLocal_eq (env : LocalEnv) :
    runLocal env =
      { success := (runLocalTry env).1.1
        errorMessage := (runLocalTry env).1.2.1
        savedFiles := (runLocalTry env).1.2.2
        savedLogs :=
          if logsEnabled env then (saveLogsToFile env.todayDir env.logEnv).1 else []
        trace := (runLocalTry env).2 ++
          (if okB env.initResult then [Ev.stopEv] else []) ++
          (if logsEnabled env then [Ev.logsEv] else []) } := by
  rcases hst : env.stopResult with e | u <;>
    by_cases hle : logsEnabled env = true <;>
      simp [runLocal, hst, hle]

/-- The serverless `run` outcome, assembled from the `try` block and the
guarded stop. -/
theorem runLambda_eq (env : LambdaEnv) :
    runLambda env =
      { success := (runLambdaTry env).1.1
        errorMessage := (runLambdaTry env).1.2.1
        uploadedFiles := (runLambdaTry env).1.2.2
        trace := (runLambdaTry env).2 ++
          (if okB env.initResult then [Ev.stopEv] else []) } := by
  rcases hst : env.stopResult with e | u <;> simp [runLambda, hst]

/-- C2: in both variants, `run` reports success=False with
error_message="Login failed" when `attempt_login` returns False,
success=False with error_message="Could not access Informed Delivery" when
`attempt_login` returns True but `find_informed_delivery` returns False,
and success=True with error_message=None when both return True — the saved
list being exactly what `check_mail_images` returned, even when that list
is empty; `run` itself never raises (the embedding is a total function)
and captures the text of any escaping exception (initialization, start, or
navigation) into error_message. -/
theorem c2_run_outcomes (envL : LocalEnv) (envM : LambdaEnv) :
    ((envL.initResult = .ok () → envL.startResult = .ok () →
      envL.navActResult = .ok () →
      (((attemptLoginLocal envL).1 = false →
        (runLocal envL).success = false ∧
        (runLocal envL).errorMessage = some "Login failed") ∧
      ((attemptLoginLocal envL).1 = true →
        (findInformedDeliveryLocal envL).1 = false →
        (runLocal envL).success = false ∧
        (runLocal envL).errorMessage = some "Could not access Informed Delivery") ∧
      ((attemptLoginLocal envL).1 = true →
        (findInformedDeliveryLocal envL).1 = true →
        (runLocal envL).success = true ∧
        (runLocal envL).errorMessage = none ∧
        (runLocal envL).savedFiles = (checkMailImagesLocal envL).1))) ∧
    (∀ e, envL.initResult = .error e →
      (runLocal envL).success = false ∧ (runLocal envL).errorMessage = some e) ∧
    (∀ e, envL.initResult = .ok () → envL.startResult = .error e →
      (runLocal envL).success = false ∧ (runLocal envL).errorMessage = some e) ∧
    (∀ e, envL.initResult = .ok () → envL.startResult = .ok () →
      envL.navActResult = .error e →
      (runLocal envL).success = false ∧ (runLocal envL).errorMessage = some e)) ∧
    ((envM.initResult = .ok () → envM.startResult = .ok () →
      envM.navActResult = .ok () →
      (((attemptLoginLambda envM).1 = false →
        (runLambda envM).success = false ∧
        (runLambda envM).errorMessage = some "Login failed") ∧
      ((attemptLoginLambda envM).1 = true →
        (findInformedDeliveryLambda envM).1 = false →
        (runLambda envM).success = false ∧
        (runLambda envM).errorMessage = some "Could not access Informed Delivery") ∧
      ((attemptLoginLambda envM).1 = true →
        (findInformedDeliveryLambda envM).1 = true →
        (runLambda envM).success = true ∧
        (runLambda envM).errorMessage = none ∧
        (runLambda envM).uploadedFiles = (checkMailImagesLambda envM).1))) ∧
    (∀ e, envM.initResult = .error e →
      (runLambda envM).success = false ∧ (runLambda envM).errorMessage = some e) ∧
    (∀ e, envM.initResult = .ok () → envM.startResult = .error e →
      (runLambda envM).success = false ∧ (runLambda envM).errorMessage = some e) ∧
    (∀ e, envM.initResult = .ok () → envM.startResult = .ok () →
      envM.navActResult = .error e →
      (runLambda envM).success = false ∧ (runLambda envM).errorMessage = some e)) := by
  constructor
  · refine ⟨?_, ?_, ?_, ?_⟩
    · intro hi hs hn
      refine ⟨?_, ?_, ?_⟩
      · intro hl
        simp [runLocal, runLocalTry, startAndNavigateLocal, hi, hs, hn, hl]
      · intro hl hf
        simp [runLocal, runLocalTry, startAndNavigateLocal, hi, hs, hn, hl, hf]
      · intro hl hf
        simp [runLocal, runLocalTry, startAndNavigateLocal, hi, hs, hn, hl, hf]
    · intro e he
      simp [runLocal, runLocalTry, he]
    · intro e hi hs
      simp [runLocal, runLocalTry, startAndNavigateLocal, hi, hs]
    · intro e hi hs hn
      simp [runLocal, runLocalTry, startAndNavigateLocal, hi, hs, hn]
  · refine ⟨?_, ?_, ?_, ?_⟩
    · intro hi hs hn
      refine ⟨?_, ?_, ?_⟩
      · intro hl
        simp [runLambda, runLambdaTry, startAndNavigateLambda, hi, hs, hn, hl]
      · intro hl hf
        simp [runLambda, runLambdaTry, startAndNavigateLambda, hi, hs, hn, hl, hf]
      · intro hl hf
        simp [runLambda, runLambdaTry, startAndNavigateLambda, hi, hs, hn, hl, hf]
    · intro e he
      simp [runLambda, runLambdaTry, he]
    · intro e hi hs
      simp [runLambda, runLambdaTry, startAndNavigateLambda, hi, hs]
    · intro e hi hs hn
      simp [runLambda, runLambdaTry, startAndNavigateLambda, hi, hs, hn]

/-- Witness for C2: a local run whose login-step agent calls raise reports
the "Login failed" outcome. -/
theorem c2_run_outcomes_witness :
    (runLocal envLoginFail).success = false ∧
    (runLocal envLoginFail).errorMessage = some "Login failed" :=
  ((c2_run_outcomes envLoginFail envMW).1.1 rfl rfl rfl).1 (by decide)

/-- C3 (amended): regardless of whether any earlier step raised or
reported failure, the local `run` attempts best-effort cleanup of the
agent session whenever the session object was created, and attempts
persistence of the diagnostic log files whenever `SAVE_LOGS` is enabled
(the default); with `SAVE_LOGS` disabled it performs no log persistence,
and the serverless `run` never performs log persistence at all. -/
theorem c3_cleanup_and_logs (envL : LocalEnv) (envM : LambdaEnv) :
    (envL.initResult = .ok () → Ev.stopEv ∈ (runLocal envL).trace) ∧
    (logsEnabled envL = true → Ev.logsEv ∈ (runLocal envL).trace ∧
      (runLocal envL).savedLogs = (saveLogsToFile envL.todayDir envL.logEnv).1) ∧
    (logsEnabled envL = false → Ev.logsEv ∉ (runLocal envL).trace ∧
      (runLocal envL).savedLogs = []) ∧
    (envM.initResult = .ok () → Ev.stopEv ∈ (runLambda envM).trace) ∧
    Ev.logsEv ∉ (runLambda envM).trace := by
  refine ⟨?_, ?_, ?_, ?_, ?_⟩
  · intro hi
    rw [runLocal_trace]
    simp [hi, okB, List.mem_append]
  · intro hle
    constructor
    · rw [runLocal_trace]
      simp [hle, List.mem_append]
    · rw [runLocal_savedLogs, if_pos hle]
  · intro hle
    constructor
    · rw [runLocal_trace]
      intro hc
      rcases List.mem_append.mp hc with h | h
      · rcases List.mem_append.mp h with h2 | h2
        · exact (runLocalTry_events envL _ h2).1 rfl
        · by_cases hok : okB envL.initResult = true
          · rw [if_pos hok] at h2
            simp at h2
          · have hok' := Bool.eq_false_iff.mpr hok
            rw [hok'] at h2
            simp at h2
      · rw [hle] at h
        simp at h
    · rw [runLocal_savedLogs, hle]
      simp
  · intro hi
    rw [runLambda_trace]
    simp [hi, okB, List.mem_append]
  · rw [runLambda_trace]
    intro hc
    rcases List.mem_append.mp hc with h | h
    · exact (runLambdaTry_events envM _ h).1 rfl
    · by_cases hok : okB envM.initResult = true
      · rw [if_pos hok] at h
        simp at h
      · have hok' := Bool.eq_false_iff.mpr hok
        rw [hok'] at h
        simp at h

/-- Witness for C3: a fully succeeding local run attempts both the stop
and the log persistence. -/
theorem c3_cleanup_and_logs_witness :
    Ev.stopEv ∈ (runLocal envLW).trace ∧ Ev.logsEv ∈ (runLocal envLW).trace :=
  ⟨(c3_cleanup_and_logs envLW envMW).1 rfl,
    ((c3_cleanup_and_logs envLW envMW).2.1 (by decide)).1⟩

/-- Counterexample to C3 as stated: with `SAVE_LOGS` set to `false` the
local `run` performs no log persistence at all, and the serverless `run`
never attempts log persistence — so the outer run does not always attempt
log persistence. -/
theorem c3_counterexample :
    logsEnabled envLogsOff = false ∧
    Ev.logsEv ∉ (runLocal envLogsOff).trace ∧
    (runLocal envLogsOff).savedLogs = [] ∧
    Ev.logsEv ∉ (runLambda envMW).trace := by
  have hle : logsEnabled envLogsOff = false := by decide
  refine ⟨hle, ?_, ?_, ?_⟩
  · rw [runLocal_trace]
    intro hc
    rcases List.mem_append.mp hc with h | h
    · rcases List.mem_append.mp h with h2 | h2
      · exact (runLocalTry_events envLogsOff _ h2).1 rfl
      · rw [if_pos (by decide : okB envLogsOff.initResult = true)] at h2
        simp at h2
    · rw [hle] at h
      simp at h
  · rw [runLocal_savedLogs, hle]
    simp
  · rw [runLambda_trace]
    intro hc
    rcases List.mem_append.mp hc with h | h
    · exact (runLambdaTry_events envMW _ h).1 rfl
    · rw [if_pos (by decide : okB envMW.initResult = true)] at h
      simp at h

/-- C4: in every execution (either variant) in which the agent session
object was created, a stop is invoked in the cleanup path before `run`
returns and no session use follows it; the session is started before any
agent call, page operation or screenshot is issued; and an exception
raised by `stop` is suppressed — the run's outcome does not depend on the
stop call's result (the same guarded stop is `NovaActConfig.stop`). -/
theorem c4_session_lifecycle (envL : LocalEnv) (envM : LambdaEnv) :
    (envL.initResult = .ok () → Ev.stopEv ∈ (runLocal envL).trace) ∧
    (envL.initResult = .ok () →
      ∃ t₁ t₂, (runLocal envL).trace = t₁ ++ Ev.stopEv :: t₂ ∧
        ∀ e ∈ t₂, usesSession e = false) ∧
    (∀ l₁ e l₂, (runLocal envL).trace = l₁ ++ e :: l₂ → usesSession e = true →
      Ev.startEv ∈ l₁) ∧
    (∀ r, runLocal { envL with stopResult := r } = runLocal envL) ∧
    (envM.initResult = .ok () → Ev.stopEv ∈ (runLambda envM).trace) ∧
    (envM.initResult = .ok () →
      ∃ t₁ t₂, (runLambda envM).trace = t₁ ++ Ev.stopEv :: t₂ ∧
        ∀ e ∈ t₂, usesSession e = false) ∧
    (∀ l₁ e l₂, (runLambda envM).trace = l₁ ++ e :: l₂ → usesSession e = true →
      Ev.startEv ∈ l₁) ∧
    (∀ r, runLambda { envM with stopResult := r } = runLambda envM) := by
  refine ⟨?_, ?_, ?_, ?_, ?_, ?_, ?_, ?_⟩
  · intro hi
    rw [runLocal_trace]
    simp [hi, okB, List.mem_append]
  · intro hi
    refine ⟨(runLocalTry envL).2,
      if logsEnabled envL then [Ev.logsEv] else [], ?_, ?_⟩
    · rw [runLocal_trace, hi]
      simp [okB, List.append_assoc]
    · intro e he
      by_cases hle : logsEnabled envL = true
      · rw [if_pos hle] at he
        simp at he
        subst he
        rfl
      · have hle' := Bool.eq_false_iff.mpr hle
        rw [hle'] at he
        simp at he
  · intro l₁ e l₂ htr huse
    rcases hx : envL.initResult with er | u
    · have h0 := runLocalTry_initFail envL er hx
      rw [runLocal_trace, h0, hx] at htr
      simp [okB] at htr
      by_cases hle : logsEnabled envL = true
      · rw [if_pos hle] at htr
        rcases l₁ with _ | ⟨x, l₁'⟩
        · simp at htr
          obtain ⟨rfl, -⟩ := htr
          exact absurd huse (by decide)
        · simp at htr
      · have hle' := Bool.eq_false_iff.mpr hle
        rw [hle'] at htr
        simp at htr
    · cases u
      obtain ⟨r, hr⟩ := runLocalTry_head envL hx
      rw [runLocal_trace, hr] at htr
      rcases l₁ with _ | ⟨x, l₁'⟩
      · simp at htr
        obtain ⟨rfl, -⟩ := htr
        exact absurd huse (by decide)
      · simp only [List.cons_append, List.cons.injEq] at htr
        rw [htr.1]
        exact List.mem_cons_self _ _
  · intro r
    rw [runLocal_eq, runLocal_eq]
    rfl
  · intro hi
    rw [runLambda_trace]
    simp [hi, okB, List.mem_append]
  · intro hi
    refine ⟨(runLambdaTry envM).2, [], ?_, ?_⟩
    · rw [runLambda_trace, hi]
      simp [okB]
    · intro e he
      simp at he
  · intro l₁ e l₂ htr huse
    rcases hx : envM.initResult with er | u
    · have h0 := runLambdaTry_initFail envM er hx
      rw [runLambda_trace, h0, hx] at htr
      simp [okB] at htr
    · cases u
      obtain ⟨r, hr⟩ := runLambdaTry_head envM hx
      rw [runLambda_trace, hr] at htr
      rcases l₁ with _ | ⟨x, l₁'⟩
      · simp at htr
        obtain ⟨rfl, -⟩ := htr
        exact absurd huse (by decide)
      · simp only [List.cons_append, List.cons.injEq] at htr
        rw [htr.1]
        exact List.mem_cons_self _ _
  · intro r
    rw [runLambda_eq, runLambda_eq]
    rfl

/-- Witness for C4: in a fully succeeding local run the stop event is in
the trace. -/
theorem c4_session_lifecycle_witness :
    Ev.stopEv ∈ (runLocal envLW).trace :=
  (c4_session_lifecycle envLW envMW).1 rfl

end USPS
